import Mathlib

/-!
# Matching engine: session phases and order dispatch

A shallow embedding of `Engine_MatchingEngine.cpp` (namespace `exchange::engine`).

* Times (`boost::posix_time::ptime`) and durations (`DurationType(int)`) are integers
  counted in seconds; `now`, which the C++ reads from `second_clock::local_time()`,
  is an explicit argument.
* `m_OrderBookContainer` (a map from product id to an owned book) is an association
  list; `m_MonitoredOrderBook` (a sequence of pointers to books of that container)
  is the list of the product ids of the books pointed to.
* `assert` is a failing result: `CancelAllOrders` and `EngineListen` return `none`
  when the assertion does not hold.
* The configuration tree is the list of its paths and data; the conversions of the
  data, the date of the day and the instrument database are an `Environment`;
  `Configure` returns `none` when an exception that it does not catch leaves it.
* The order book class, the `TradingPhase` enumeration and the order records are
  declared in headers that are not at hand; what the engine needs of them is modelled
  below, and the matching algorithms of the book are parameters (`OrderBookLogic`).
-/

namespace exchange.engine

/-! ## Records and the order book (collaborators of the engine) -/

/-- Modelled from the spec: the trading phases of a book, `TradingPhase` in the code;
the enumeration's declaration is missing from the sources. -/
inductive TradingPhase
  | OPENING_AUCTION
  | CONTINUOUS_TRADING
  | CLOSING_AUCTION
  | CLOSE
  | INTRADAY_AUCTION
  deriving DecidableEq, Repr

/-- Modelled from the spec: the enumerator values of `TradingPhase`, which the range
test of `SetGlobalPhase` compares. The declaration is missing; the four global phases
are numbered in session order from `OPENING_AUCTION` to `CLOSE` and `INTRADAY_AUCTION`
follows `CLOSE`, as the comment in `SetGlobalPhase` requires (the range test is there
to refuse `INTRADAY_AUCTION`). -/
def TradingPhase.toNat : TradingPhase → Nat
  | .OPENING_AUCTION => 0
  | .CONTINUOUS_TRADING => 1
  | .CLOSING_AUCTION => 2
  | .CLOSE => 3
  | .INTRADAY_AUCTION => 4

/-- Modelled from the spec: the side of an order, `OrderWay` in the code. -/
inductive OrderWay
  | BUY
  | SELL
  deriving DecidableEq, Repr

/-- Modelled from the spec: an order, identified by `(order_id, client_id, side)`. -/
structure Order where
  orderId : Nat
  clientId : Nat
  way : OrderWay
  price : Nat
  quantity : Nat
  deriving DecidableEq, Repr

/-- Modelled from the spec: a replacement of the price and quantity of an order. -/
structure OrderReplace where
  existingOrderId : Nat
  clientId : Nat
  way : OrderWay
  newPrice : Nat
  newQuantity : Nat
  deriving DecidableEq, Repr

/-- Modelled from the spec: a deal between a buy order and a sell order. -/
structure Deal where
  price : Nat
  quantity : Nat
  buyOrderId : Nat
  buyClientId : Nat
  sellOrderId : Nat
  sellClientId : Nat
  deriving DecidableEq, Repr

/-- Modelled from the spec: the state of an order book: its phase, the end of its
current auction, the resting orders of both sides, its prices and its deal log. -/
structure OrderBook where
  phase : TradingPhase
  auctionEnd : Int
  bids : List Order
  asks : List Order
  referencePrice : Nat
  lastTradedPrice : Nat
  deals : List Deal
  deriving DecidableEq, Repr

/-- Outcome of an order operation on a book: whether it was accepted, the book
afterwards, and whether the book asked the engine to monitor it (it entered an
intraday auction). -/
structure BookResult where
  accepted : Bool
  book : OrderBook
  monitor : Bool
  deriving DecidableEq, Repr

/-- Modelled from the spec: the algorithms of the order book whose code is missing
from the sources (matching on insert, modify, delete, and the auction uncrosser).
The engine only dispatches to them, so they are left as parameters. -/
structure OrderBookLogic where
  Insert : Order → OrderBook → BookResult
  Modify : OrderReplace → OrderBook → BookResult
  Delete : Nat → Nat → OrderWay → OrderBook → BookResult
  uncross : OrderBook → OrderBook

/-- The three auction phases. -/
def TradingPhase.isAuction : TradingPhase → Bool
  | .OPENING_AUCTION => true
  | .CLOSING_AUCTION => true
  | .INTRADAY_AUCTION => true
  | _ => false

/-- Modelled from the spec: `OrderBook::GetAuctionEnd`. -/
def OrderBook.GetAuctionEnd (b : OrderBook) : Int := b.auctionEnd

/-- Modelled from the spec: `OrderBook::CancelAllOrders` "drops every resting order
without generating deals". -/
def OrderBook.CancelAllOrders (b : OrderBook) : OrderBook :=
  { b with bids := [], asks := [] }

/-- Modelled from the spec: the uncrosser commits deals and updates the queues and the
prices of the book; it does not touch the phase nor the auction end. -/
def OrderBook.commitUncross (L : OrderBookLogic) (b : OrderBook) : OrderBook :=
  let u := L.uncross b
  { b with bids := u.bids, asks := u.asks, referencePrice := u.referencePrice,
           lastTradedPrice := u.lastTradedPrice, deals := u.deals }

/-- Modelled from the spec: `OrderBook::SetTradingPhase`. "On transition out of
OPENING_AUCTION, CLOSING_AUCTION, or INTRADAY_AUCTION, the uncrossing algorithm runs
and generated deals are committed. On transition into CLOSED, all resting orders are
cancelled." -/
def OrderBook.SetTradingPhase (L : OrderBookLogic) (iNewPhase : TradingPhase)
    (b : OrderBook) : OrderBook :=
  let b1 := if b.phase.isAuction = true ∧ iNewPhase ≠ b.phase then b.commitUncross L else b
  let b2 := { b1 with phase := iNewPhase }
  if iNewPhase = TradingPhase.CLOSE then b2.CancelAllOrders else b2

/-! ## The engine -/

/-- State of `MatchingEngine`: the data members of the class. The deviation factors
are doubles in the code; they are carried as rationals and no operation modelled here
reads them. -/
structure MatchingEngine where
  m_StartTime : Int
  m_StopTime : Int
  m_AuctionEnd : Int
  m_IntradayAuctionDuration : Int
  m_OpeningAuctionDuration : Int
  m_ClosingAuctionDuration : Int
  m_PriceDeviationFactor : Rat × Rat
  m_GlobalPhase : TradingPhase
  m_OrderBookContainer : List (Nat × OrderBook)
  m_MonitoredOrderBook : List Nat
  deriving DecidableEq

/-- `m_OrderBookContainer.find(iProductID)`: the book stored under a product id. -/
def findBook : List (Nat × OrderBook) → Nat → Option OrderBook
  | [], _ => none
  | (k, b) :: rest, iProductID => if k = iProductID then some b else findBook rest iProductID

/-- The product ids that are keys of the container. -/
def bookKeys (c : List (Nat × OrderBook)) : List Nat := c.map Prod.fst

/-- A call of a member function on the book stored under `iProductID`, the book being
updated in place. -/
def updateBook (iProductID : Nat) (f : OrderBook → OrderBook)
    (c : List (Nat × OrderBook)) : List (Nat × OrderBook) :=
  c.map (fun kb => if kb.1 = iProductID then (kb.1, f kb.2) else kb)

namespace MatchingEngine

/-- The constructor `MatchingEngine::MatchingEngine()`: durations are zero, the global
phase is `CLOSE`, no book, no monitored book. The default-constructed times are taken
as `0`. -/
def construct : MatchingEngine :=
  { m_StartTime := 0, m_StopTime := 0, m_AuctionEnd := 0,
    m_IntradayAuctionDuration := 0, m_OpeningAuctionDuration := 0,
    m_ClosingAuctionDuration := 0, m_PriceDeviationFactor := (0, 0),
    m_GlobalPhase := TradingPhase.CLOSE,
    m_OrderBookContainer := [], m_MonitoredOrderBook := [] }

/-- `GetGlobalPhase`. -/
def GetGlobalPhase (e : MatchingEngine) : TradingPhase := e.m_GlobalPhase

/-- The engine after an order operation on the book under `iProductID` returned `r`:
the book is the one the operation left, and it is appended to the monitored books when
it asked for it. -/
def commit (e : MatchingEngine) (iProductID : Nat) (r : BookResult) : MatchingEngine :=
  { e with
    m_OrderBookContainer := updateBook iProductID (fun _ => r.book) e.m_OrderBookContainer,
    m_MonitoredOrderBook :=
      if r.monitor = true then e.m_MonitoredOrderBook ++ [iProductID]
      else e.m_MonitoredOrderBook }

/-- `MatchingEngine::Insert`. -/
def Insert (L : OrderBookLogic) (iOrder : Order) (iProductID : Nat) (e : MatchingEngine) :
    Bool × MatchingEngine :=
  match findBook e.m_OrderBookContainer iProductID with
  | some book =>
    let r := L.Insert iOrder book
    (r.accepted, e.commit iProductID r)
  | none => (false, e)

/-- `MatchingEngine::Modify`. -/
def Modify (L : OrderBookLogic) (iOrderReplace : OrderReplace) (iProductID : Nat)
    (e : MatchingEngine) : Bool × MatchingEngine :=
  match findBook e.m_OrderBookContainer iProductID with
  | some book =>
    let r := L.Modify iOrderReplace book
    (r.accepted, e.commit iProductID r)
  | none => (false, e)

/-- `MatchingEngine::Delete`. -/
def Delete (L : OrderBookLogic) (iOrderID iClientID : Nat) (iWay : OrderWay)
    (iProductID : Nat) (e : MatchingEngine) : Bool × MatchingEngine :=
  match findBook e.m_OrderBookContainer iProductID with
  | some book =>
    let r := L.Delete iOrderID iClientID iWay book
    (r.accepted, e.commit iProductID r)
  | none => (false, e)

/-- `MatchingEngine::UpdateInstrumentsPhase`. -/
def UpdateInstrumentsPhase (L : OrderBookLogic) (iNewPhase : TradingPhase)
    (e : MatchingEngine) : MatchingEngine :=
  if iNewPhase ≠ e.m_GlobalPhase then
    { e with
      m_GlobalPhase := iNewPhase,
      m_OrderBookContainer :=
        e.m_OrderBookContainer.map (fun kb => (kb.1, kb.2.SetTradingPhase L iNewPhase)) }
  else e

/-- `MatchingEngine::SetGlobalPhase`, with the clock reading `now`. -/
def SetGlobalPhase (L : OrderBookLogic) (now : Int) (iNewPhase : TradingPhase)
    (e : MatchingEngine) : Bool × MatchingEngine :=
  if iNewPhase.toNat > TradingPhase.CLOSE.toNat ∨
      iNewPhase.toNat < TradingPhase.OPENING_AUCTION.toNat then
    (false, e)
  else
    let e1 :=
      if iNewPhase = TradingPhase.OPENING_AUCTION then
        { e with m_AuctionEnd := now + e.m_OpeningAuctionDuration }
      else e
    let e2 :=
      if iNewPhase = TradingPhase.CLOSING_AUCTION then
        { e1 with m_AuctionEnd := now + e1.m_ClosingAuctionDuration }
      else e1
    (true, e2.UpdateInstrumentsPhase L iNewPhase)

/-- The loop of `MatchingEngine::CheckOrderBooks` over the monitored books still to
visit: the result is the monitored books that are kept and the container afterwards.
A product id under which no book is stored (a pointer to no book, which the C++ cannot
hold) is kept. -/
def checkLoop (L : OrderBookLogic) (Now : Int) (globalPhase : TradingPhase) :
    List Nat → List (Nat × OrderBook) → List Nat × List (Nat × OrderBook)
  | [], c => ([], c)
  | k :: rest, c =>
    match findBook c k with
    | some pBook =>
      if Now > pBook.GetAuctionEnd then
        checkLoop L Now globalPhase rest
          (updateBook k (OrderBook.SetTradingPhase L globalPhase) c)
      else
        let r := checkLoop L Now globalPhase rest c
        (k :: r.1, r.2)
    | none =>
      let r := checkLoop L Now globalPhase rest c
      (k :: r.1, r.2)

/-- `MatchingEngine::CheckOrderBooks`. -/
def CheckOrderBooks (L : OrderBookLogic) (Now : Int) (e : MatchingEngine) : MatchingEngine :=
  let r := checkLoop L Now e.m_GlobalPhase e.m_MonitoredOrderBook e.m_OrderBookContainer
  { e with m_MonitoredOrderBook := r.1, m_OrderBookContainer := r.2 }

/-- `MatchingEngine::CancelAllOrders`; `none` when the assertion fails. -/
def CancelAllOrders (e : MatchingEngine) : Option MatchingEngine :=
  if e.m_MonitoredOrderBook.length = 0 then
    some { e with
      m_OrderBookContainer :=
        e.m_OrderBookContainer.map (fun kb => (kb.1, kb.2.CancelAllOrders)) }
  else none

/-- `MatchingEngine::EngineListen` with the clock reading `now` (the `Tick(now)` of the
specification); `none` when the assertion of `CancelAllOrders` fails. -/
def EngineListen (L : OrderBookLogic) (now : Int) (e : MatchingEngine) :
    Option MatchingEngine :=
  let e1 := e.CheckOrderBooks L now
  let bInOpenPeriod : Bool := decide (now < e1.m_StopTime) && decide (now > e1.m_StartTime)
  match e1.GetGlobalPhase with
  | .CLOSE =>
    if bInOpenPeriod = true then
      some (UpdateInstrumentsPhase L TradingPhase.OPENING_AUCTION
        { e1 with m_AuctionEnd := now + e1.m_OpeningAuctionDuration })
    else some e1
  | .OPENING_AUCTION =>
    if now > e1.m_AuctionEnd then
      some (e1.UpdateInstrumentsPhase L TradingPhase.CONTINUOUS_TRADING)
    else some e1
  | .CONTINUOUS_TRADING =>
    if bInOpenPeriod = false then
      some (UpdateInstrumentsPhase L TradingPhase.CLOSING_AUCTION
        { e1 with m_AuctionEnd := now + e1.m_ClosingAuctionDuration })
    else some e1
  | .CLOSING_AUCTION =>
    if now > e1.m_AuctionEnd then
      (e1.UpdateInstrumentsPhase L TradingPhase.CLOSE).CancelAllOrders
    else some e1
  | _ => some e1

end MatchingEngine

/-- Whether the auction of the book stored under `k` has ended before `Now`: the test
`Now > pBook->GetAuctionEnd()` of `CheckOrderBooks`. -/
def auctionEnded (c : List (Nat × OrderBook)) (Now : Int) (k : Nat) : Bool :=
  match findBook c k with
  | some pBook => decide (Now > pBook.GetAuctionEnd)
  | none => false

/-! ## Sequences of operations -/

/-- The phase that follows a global phase in the session cycle
`CLOSE -> OPENING_AUCTION -> CONTINUOUS_TRADING -> CLOSING_AUCTION -> CLOSE`;
`INTRADAY_AUCTION` is not part of the cycle. -/
def TradingPhase.next : TradingPhase → TradingPhase
  | .CLOSE => .OPENING_AUCTION
  | .OPENING_AUCTION => .CONTINUOUS_TRADING
  | .CONTINUOUS_TRADING => .CLOSING_AUCTION
  | .CLOSING_AUCTION => .CLOSE
  | .INTRADAY_AUCTION => .INTRADAY_AUCTION

/-- Modelled from the spec: a book entering an intraday auction "sets its phase to
INTRADAY_AUCTION, sets its own auction_end = now + intraday_duration". -/
def OrderBook.EnterIntradayAuction (now duration : Int) (b : OrderBook) : OrderBook :=
  { b with phase := TradingPhase.INTRADAY_AUCTION, auctionEnd := now + duration }

/-- Modelled from the spec: the book stored under `iProductID`, in continuous trading,
enters an intraday auction at `now` "and registers itself with the engine's
monitored_books". Nothing happens when there is no such book or when it is not in
continuous trading. -/
def MatchingEngine.EnterIntradayAuction (now : Int) (iProductID : Nat)
    (e : MatchingEngine) : MatchingEngine :=
  match findBook e.m_OrderBookContainer iProductID with
  | some book =>
    if book.phase = TradingPhase.CONTINUOUS_TRADING then
      { e with
        m_OrderBookContainer :=
          updateBook iProductID
            (OrderBook.EnterIntradayAuction now e.m_IntradayAuctionDuration)
            e.m_OrderBookContainer,
        m_MonitoredOrderBook := e.m_MonitoredOrderBook ++ [iProductID] }
    else e
  | none => e

/-- One call on the engine by its environment: the public operations, the clock tick
with its first step, and a book entering an intraday auction. -/
inductive EngineOp
  | SetGlobalPhase (now : Int) (iNewPhase : TradingPhase)
  | EngineListen (now : Int)
  | CheckOrderBooks (now : Int)
  | EnterIntradayAuction (now : Int) (iProductID : Nat)
  | Insert (iOrder : Order) (iProductID : Nat)
  | Modify (iOrderReplace : OrderReplace) (iProductID : Nat)
  | Delete (iOrderID iClientID : Nat) (iWay : OrderWay) (iProductID : Nat)
  deriving DecidableEq, Repr

/-- The engine after one call; `none` when an assertion fails during the call. -/
def applyOp (L : OrderBookLogic) (op : EngineOp) (e : MatchingEngine) :
    Option MatchingEngine :=
  match op with
  | .SetGlobalPhase now p => some (e.SetGlobalPhase L now p).2
  | .EngineListen now => e.EngineListen L now
  | .CheckOrderBooks now => some (e.CheckOrderBooks L now)
  | .EnterIntradayAuction now k => some (e.EnterIntradayAuction now k)
  | .Insert o k => some (e.Insert L o k).2
  | .Modify r k => some (e.Modify L r k).2
  | .Delete oid cid w k => some (e.Delete L oid cid w k).2

/-- The engine after a sequence of calls, first call first. -/
def runOps (L : OrderBookLogic) : List EngineOp → MatchingEngine → Option MatchingEngine
  | [], e => some e
  | op :: rest, e =>
    match applyOp L op e with
    | some e2 => runOps L rest e2
    | none => none

/-! ## Configuration -/

/-- Modelled from the spec: an instrument record of the database,
`(product_id, name, currency, tick_size, lot_size, initial_reference_price)`. -/
structure Instrument where
  productId : Nat
  name : String
  currency : Nat
  tickSize : Nat
  lotSize : Nat
  initialReferencePrice : Nat
  deriving DecidableEq, Repr

/-- Modelled from the spec: the book the `OrderBook` constructor builds for an
instrument: closed, without orders nor deals, at the initial reference price. -/
def OrderBook.create (i : Instrument) : OrderBook :=
  { phase := TradingPhase.CLOSE, auctionEnd := 0, bids := [], asks := [],
    referencePrice := i.initialReferencePrice, lastTradedPrice := 0, deals := [] }

/-- What `Configure` takes from outside the class: the date of the day, the conversions
of the configuration data and the instrument database. `duration_from_string` is `none`
on a string it cannot convert, where the library throws `bad_lexical_cast`, which is
not a `ptree_error`; `toInt` and `toDouble` are the conversions of `get<int>` and
`get<double>` (doubles are carried as rationals), `none` where `get` throws
`ptree_bad_data`; `Load` gives, for a database path, the instruments that
`InstrumentManager::Load` hands to the handler, once each, and the value it returns. -/
structure Environment where
  today_midnight : Int
  duration_from_string : String → Option Int
  toInt : String → Option Int
  toDouble : String → Option Rat
  Load : String → List Instrument × Bool

/-- `iConfig.get<std::string>(path)` on a configuration tree given by its paths and
data; `none` when the path is missing (`ptree_bad_path`). -/
def ptreeGet : List (String × String) → String → Option String
  | [], _ => none
  | (k, v) :: rest, path => if k = path then some v else ptreeGet rest path

/-- The configuration keys that `Configure` reads. -/
def configKeys : List String :=
  ["Engine.instrument_db_path", "Engine.start_time", "Engine.stop_time",
   "Engine.intraday_auction_duration", "Engine.opening_auction_duration",
   "Engine.closing_auction_duration", "Engine.max_price_deviation"]

namespace MatchingEngine

/-- The `InstrumentHandler` of `LoadInstruments`: `emplace` stores the new book unless
the product id is already a key; in that case an error is logged and nothing else
happens. -/
def InstrumentHandler (e : MatchingEngine) (i : Instrument) : MatchingEngine :=
  if i.productId ∈ bookKeys e.m_OrderBookContainer then e
  else
    { e with
      m_OrderBookContainer := e.m_OrderBookContainer ++ [(i.productId, OrderBook.create i)] }

/-- `MatchingEngine::LoadInstruments`: the returned value and the engine afterwards. -/
def LoadInstruments (env : Environment) (iConfig : List (String × String))
    (e : MatchingEngine) : Bool × MatchingEngine :=
  match ptreeGet iConfig "Engine.instrument_db_path" with
  | none => (false, e)
  | some InstrumentDBPath =>
    let db := env.Load InstrumentDBPath
    (db.2, db.1.foldl InstrumentHandler e)

/-- `MatchingEngine::LoadConfiguration`: the returned value and the engine afterwards;
`none` when an exception that is not a `ptree_error` leaves the function. -/
def LoadConfiguration (env : Environment) (iConfig : List (String × String))
    (e : MatchingEngine) : Option (Bool × MatchingEngine) :=
  match ptreeGet iConfig "Engine.start_time" with
  | none => some (false, e)
  | some StartTime =>
  match ptreeGet iConfig "Engine.stop_time" with
  | none => some (false, e)
  | some StopTime =>
  match env.duration_from_string StartTime with
  | none => none
  | some dStart =>
  let e1 := { e with m_StartTime := env.today_midnight + dStart }
  match env.duration_from_string StopTime with
  | none => none
  | some dStop =>
  let e2 := { e1 with m_StopTime := env.today_midnight + dStop }
  match (ptreeGet iConfig "Engine.intraday_auction_duration").bind env.toInt with
  | none => some (false, e2)
  | some intraday =>
  let e3 := { e2 with m_IntradayAuctionDuration := intraday }
  match (ptreeGet iConfig "Engine.opening_auction_duration").bind env.toInt with
  | none => some (false, e3)
  | some opening =>
  let e4 := { e3 with m_OpeningAuctionDuration := opening }
  match (ptreeGet iConfig "Engine.closing_auction_duration").bind env.toInt with
  | none => some (false, e4)
  | some closing =>
  let e5 := { e4 with m_ClosingAuctionDuration := closing }
  match (ptreeGet iConfig "Engine.max_price_deviation").bind env.toDouble with
  | none => some (false, e5)
  | some deviation =>
  let MaxPriceDeviationPercentage := deviation / 100
  some (true,
    { e5 with
      m_PriceDeviationFactor :=
        (1 - MaxPriceDeviationPercentage, 1 + MaxPriceDeviationPercentage) })

/-- `MatchingEngine::Configure`: the returned value and the engine afterwards; `none`
when an exception leaves the function. -/
def Configure (env : Environment) (iConfig : List (String × String))
    (e : MatchingEngine) : Option (Bool × MatchingEngine) :=
  let r := e.LoadInstruments env iConfig
  if r.1 = false then some (false, r.2)
  else
    match r.2.LoadConfiguration env iConfig with
    | none => none
    | some r2 => if r2.1 = false then some (false, r2.2) else some (true, r2.2)

end MatchingEngine

/-! ## Sample data for the concrete instances -/

/-- A simple book logic: an order with a positive price and quantity is queued on its
side, a replacement or a deletion succeeds when the order is resting, and the uncrosser
matches nothing. -/
def sampleLogic : OrderBookLogic where
  Insert := fun o b =>
    if 0 < o.price ∧ 0 < o.quantity then
      { accepted := true,
        book := if o.way = OrderWay.BUY then { b with bids := b.bids ++ [o] }
                else { b with asks := b.asks ++ [o] },
        monitor := false }
    else { accepted := false, book := b, monitor := false }
  Modify := fun r b =>
    { accepted := (b.bids ++ b.asks).any
        (fun o => o.orderId = r.existingOrderId ∧ o.clientId = r.clientId ∧ o.way = r.way),
      book := b, monitor := false }
  Delete := fun oid cid w b =>
    let keep : Order → Bool := fun o => !(o.orderId = oid ∧ o.clientId = cid ∧ o.way = w)
    { accepted := (b.bids ++ b.asks).any (fun o => !(keep o)),
      book := { b with bids := b.bids.filter keep, asks := b.asks.filter keep },
      monitor := false }
  uncross := fun b => b

/-- A buy order of 10 at price 100. -/
def sampleOrder : Order :=
  { orderId := 1, clientId := 1, way := OrderWay.BUY, price := 100, quantity := 10 }

/-- A replacement of the sample order. -/
def sampleReplace : OrderReplace :=
  { existingOrderId := 1, clientId := 1, way := OrderWay.BUY, newPrice := 101, newQuantity := 5 }

/-- A book in phase `p` whose auction ends at `t`, with one resting bid. -/
def sampleBook (p : TradingPhase) (t : Int) : OrderBook :=
  { phase := p, auctionEnd := t, bids := [sampleOrder], asks := [],
    referencePrice := 100, lastTradedPrice := 100, deals := [] }

/-- An engine open from 100 to 200, with auctions of 10 seconds and a price deviation
of 100 percent, in global phase `p` with auction end `t`, holding the given books and
monitored books. -/
def sampleEngine (p : TradingPhase) (t : Int) (books : List (Nat × OrderBook))
    (monitored : List Nat) : MatchingEngine :=
  { m_StartTime := 100, m_StopTime := 200, m_AuctionEnd := t,
    m_IntradayAuctionDuration := 10, m_OpeningAuctionDuration := 10,
    m_ClosingAuctionDuration := 10, m_PriceDeviationFactor := (0, 2),
    m_GlobalPhase := p, m_OrderBookContainer := books, m_MonitoredOrderBook := monitored }

/-- An instrument with the given product id and name. -/
def sampleInstrument (iProductID : Nat) (name : String) : Instrument :=
  { productId := iProductID, name := name, currency := 0, tickSize := 1, lotSize := 1,
    initialReferencePrice := 100 }

/-- An environment that converts the two time strings and the numbers of the sample
configurations and holds two databases: one with the instruments 7 and 8, one where two
instruments have the product id 7. Both load successfully. -/
def sampleEnvironment : Environment where
  today_midnight := 0
  duration_from_string := fun s =>
    if s = "00:01:40" then some 100 else if s = "00:03:20" then some 200 else none
  toInt := fun s => if s = "10" then some 10 else if s = "100" then some 100 else none
  toDouble := fun s => if s = "100" then some 100 else none
  Load := fun path =>
    if path = "instruments.db" then
      ([sampleInstrument 7 "ABC", sampleInstrument 8 "DEF"], true)
    else if path = "duplicates.db" then
      ([sampleInstrument 7 "ABC", sampleInstrument 7 "XYZ"], true)
    else ([], false)

/-- A complete configuration on the database `db`: open from second 100 to second 200
of the day, opening and closing auctions of 10 seconds, intraday auctions of 100
seconds. -/
def sampleConfig (db : String) : List (String × String) :=
  [("Engine.instrument_db_path", db), ("Engine.start_time", "00:01:40"),
   ("Engine.stop_time", "00:03:20"), ("Engine.intraday_auction_duration", "100"),
   ("Engine.opening_auction_duration", "10"), ("Engine.closing_auction_duration", "10"),
   ("Engine.max_price_deviation", "100")]

/-- A configuration whose start time cannot be converted and that lacks the duration of
the intraday auction. -/
def brokenConfig : List (String × String) :=
  [("Engine.instrument_db_path", "instruments.db"), ("Engine.start_time", "abc"),
   ("Engine.stop_time", "00:03:20"),
   ("Engine.opening_auction_duration", "10"), ("Engine.closing_auction_duration", "10"),
   ("Engine.max_price_deviation", "100")]

/-! ## General lemmas on the container -/

theorem findBook_eq_none_iff (c : List (Nat × OrderBook)) (k : Nat) :
    findBook c k = none ↔ k ∉ bookKeys c := by
  induction c with
  | nil => simp [findBook, bookKeys]
  | cons kb rest ih =>
    obtain ⟨k0, b0⟩ := kb
    by_cases h : k0 = k
    · simp [findBook, bookKeys, h]
    · have h2 : ¬ k = k0 := fun h3 => h h3.symm
      simp [findBook, h, h2, bookKeys] at ih ⊢
      exact ih

theorem findBook_some_mem (c : List (Nat × OrderBook)) (k : Nat) (b : OrderBook)
    (h : findBook c k = some b) : (k, b) ∈ c := by
  induction c with
  | nil => simp [findBook] at h
  | cons kb rest ih =>
    obtain ⟨k0, b0⟩ := kb
    by_cases hk : k0 = k
    · simp [findBook, hk] at h
      simp [hk, h]
    · simp [findBook, hk] at h
      exact List.mem_cons_of_mem _ (ih h)

/-! ## General lemmas on the order book -/

theorem SetTradingPhase_phase (L : OrderBookLogic) (p : TradingPhase) (b : OrderBook) :
    (b.SetTradingPhase L p).phase = p := by
  unfold OrderBook.SetTradingPhase
  by_cases hp : p = TradingPhase.CLOSE <;> simp [hp, OrderBook.CancelAllOrders]

theorem SetTradingPhase_auctionEnd (L : OrderBookLogic) (p : TradingPhase) (b : OrderBook) :
    (b.SetTradingPhase L p).auctionEnd = b.auctionEnd := by
  simp only [OrderBook.SetTradingPhase, OrderBook.CancelAllOrders, OrderBook.commitUncross]
  split_ifs <;> rfl

theorem SetTradingPhase_idem (L : OrderBookLogic) (p : TradingPhase) (b : OrderBook) :
    (b.SetTradingPhase L p).SetTradingPhase L p = b.SetTradingPhase L p := by
  have hph := SetTradingPhase_phase L p b
  have hq : p = TradingPhase.CLOSE → (b.SetTradingPhase L p).bids = [] ∧
      (b.SetTradingPhase L p).asks = [] := by
    intro hp
    simp [OrderBook.SetTradingPhase, OrderBook.CancelAllOrders, hp]
  generalize b.SetTradingPhase L p = b1 at hph hq
  obtain ⟨ph, ae, bids, asks, rp, lp, ds⟩ := b1
  simp only at hph hq
  subst hph
  by_cases hp : ph = TradingPhase.CLOSE
  · obtain ⟨h1, h2⟩ := hq hp
    subst h1 h2
    simp [OrderBook.SetTradingPhase, OrderBook.CancelAllOrders, hp]
  · simp [OrderBook.SetTradingPhase, hp]

theorem updateBook_cons (k : Nat) (f : OrderBook → OrderBook) (k0 : Nat) (b0 : OrderBook)
    (rest : List (Nat × OrderBook)) :
    updateBook k f ((k0, b0) :: rest) =
      (if k0 = k then (k0, f b0) else (k0, b0)) :: updateBook k f rest := rfl

theorem findBook_cons (k0 : Nat) (b0 : OrderBook) (rest : List (Nat × OrderBook)) (k2 : Nat) :
    findBook ((k0, b0) :: rest) k2 = if k0 = k2 then some b0 else findBook rest k2 := rfl

theorem findBook_updateBook (k : Nat) (f : OrderBook → OrderBook)
    (c : List (Nat × OrderBook)) (k2 : Nat) :
    findBook (updateBook k f c) k2 =
      if k2 = k then (findBook c k2).map f else findBook c k2 := by
  induction c with
  | nil => simp [updateBook, findBook]
  | cons kb rest ih =>
    obtain ⟨k0, b0⟩ := kb
    rw [updateBook_cons, findBook_cons]
    by_cases h0 : k0 = k
    · rw [if_pos h0, findBook_cons]
      by_cases h2 : k0 = k2
      · have h3 : k2 = k := h2 ▸ h0
        simp [h2, h3]
      · rw [if_neg h2, if_neg h2, ih]
    · rw [if_neg h0, findBook_cons]
      by_cases h2 : k0 = k2
      · have h3 : ¬ k2 = k := fun h => h0 (h2.trans h)
        simp [h2, h3]
      · rw [if_neg h2, if_neg h2, ih]

theorem bookKeys_updateBook (k : Nat) (f : OrderBook → OrderBook)
    (c : List (Nat × OrderBook)) : bookKeys (updateBook k f c) = bookKeys c := by
  induction c with
  | nil => rfl
  | cons kb rest ih =>
    simp only [bookKeys, updateBook, List.map_cons] at ih ⊢
    by_cases h0 : kb.1 = k <;> simp [h0, ih]

theorem auctionEnded_updateBook (L : OrderBookLogic) (p : TradingPhase) (k : Nat)
    (c : List (Nat × OrderBook)) (Now : Int) (k2 : Nat) :
    auctionEnded (updateBook k (OrderBook.SetTradingPhase L p) c) Now k2 =
      auctionEnded c Now k2 := by
  unfold auctionEnded
  rw [findBook_updateBook]
  by_cases h : k2 = k
  · cases hf : findBook c k2 <;>
      simp [h, hf, OrderBook.GetAuctionEnd, SetTradingPhase_auctionEnd]
  · simp [h]

/-- The book stored under `k` after `CheckOrderBooks` visited the monitored books `ks`. -/
theorem checkLoop_spec (L : OrderBookLogic) (Now : Int) (p : TradingPhase) (ks : List Nat) :
    ∀ c : List (Nat × OrderBook),
      (MatchingEngine.checkLoop L Now p ks c).1 = ks.filter (fun k => !(auctionEnded c Now k)) ∧
      bookKeys (MatchingEngine.checkLoop L Now p ks c).2 = bookKeys c ∧
      ∀ k, findBook (MatchingEngine.checkLoop L Now p ks c).2 k =
        (findBook c k).map (fun b =>
          if k ∈ ks ∧ Now > b.auctionEnd then b.SetTradingPhase L p else b) := by
  induction ks with
  | nil => intro c; simp [MatchingEngine.checkLoop]
  | cons k0 rest ih =>
    intro c
    cases hf : findBook c k0 with
    | none =>
      obtain ⟨ih1, ih2, ih3⟩ := ih c
      have hne : auctionEnded c Now k0 = false := by simp [auctionEnded, hf]
      refine ⟨?_, ?_, ?_⟩
      · simp [MatchingEngine.checkLoop, hf, hne, ih1]
      · simp [MatchingEngine.checkLoop, hf, ih2]
      · intro k
        simp only [MatchingEngine.checkLoop, hf]
        rw [ih3 k]
        by_cases hk : k = k0
        · subst hk; simp [hf]
        · simp [hk]
    | some pBook =>
      by_cases hlt : Now > pBook.GetAuctionEnd
      · obtain ⟨ih1, ih2, ih3⟩ := ih (updateBook k0 (OrderBook.SetTradingPhase L p) c)
        have hne : auctionEnded c Now k0 = true := by simp [auctionEnded, hf, hlt]
        refine ⟨?_, ?_, ?_⟩
        · simp only [MatchingEngine.checkLoop, hf, hlt, if_true]
          rw [ih1]
          simp [auctionEnded_updateBook, hne]
        · simp only [MatchingEngine.checkLoop, hf, hlt, if_true]
          rw [ih2, bookKeys_updateBook]
        · intro k
          simp only [MatchingEngine.checkLoop, hf, hlt, if_true]
          rw [ih3 k, findBook_updateBook]
          by_cases hk : k = k0
          · subst hk
            have hlt2 : pBook.auctionEnd < Now := hlt
            by_cases hr : k ∈ rest <;>
              simp [hf, hr, hlt2, SetTradingPhase_auctionEnd, SetTradingPhase_idem]
          · simp [hk]
      · obtain ⟨ih1, ih2, ih3⟩ := ih c
        have hne : auctionEnded c Now k0 = false := by simp [auctionEnded, hf, hlt]
        refine ⟨?_, ?_, ?_⟩
        · simp [MatchingEngine.checkLoop, hf, hlt, hne, ih1]
        · simp [MatchingEngine.checkLoop, hf, hlt, ih2]
        · intro k
          simp only [MatchingEngine.checkLoop, hf, hlt, if_false]
          rw [ih3 k]
          by_cases hk : k = k0
          · subst hk
            have hlt2 : ¬ pBook.auctionEnd < Now := hlt
            simp [hf, hlt2]
          · simp [hk]

/-! ## General lemmas on the engine -/

theorem UpdateInstrumentsPhase_globalPhase (L : OrderBookLogic) (p : TradingPhase)
    (e : MatchingEngine) : (e.UpdateInstrumentsPhase L p).m_GlobalPhase = p := by
  unfold MatchingEngine.UpdateInstrumentsPhase
  by_cases h : p = e.m_GlobalPhase
  · simp [h]
  · simp [h]

theorem UpdateInstrumentsPhase_of_eq (L : OrderBookLogic) (p : TradingPhase)
    (e : MatchingEngine) (h : p = e.m_GlobalPhase) : e.UpdateInstrumentsPhase L p = e := by
  simp [MatchingEngine.UpdateInstrumentsPhase, h]

theorem UpdateInstrumentsPhase_of_ne (L : OrderBookLogic) (p : TradingPhase)
    (e : MatchingEngine) (h : p ≠ e.m_GlobalPhase) :
    e.UpdateInstrumentsPhase L p =
      { e with
        m_GlobalPhase := p,
        m_OrderBookContainer :=
          e.m_OrderBookContainer.map (fun kb => (kb.1, kb.2.SetTradingPhase L p)) } := by
  simp [MatchingEngine.UpdateInstrumentsPhase, h]

theorem UpdateInstrumentsPhase_books_of_ne (L : OrderBookLogic) (p : TradingPhase)
    (e : MatchingEngine) (h : p ≠ e.m_GlobalPhase) :
    (e.UpdateInstrumentsPhase L p).m_OrderBookContainer =
      e.m_OrderBookContainer.map (fun kb => (kb.1, kb.2.SetTradingPhase L p)) := by
  rw [UpdateInstrumentsPhase_of_ne L p e h]

theorem UpdateInstrumentsPhase_auctionEnd (L : OrderBookLogic) (p : TradingPhase)
    (e : MatchingEngine) : (e.UpdateInstrumentsPhase L p).m_AuctionEnd = e.m_AuctionEnd := by
  unfold MatchingEngine.UpdateInstrumentsPhase
  split_ifs <;> rfl

theorem UpdateInstrumentsPhase_monitored (L : OrderBookLogic) (p : TradingPhase)
    (e : MatchingEngine) :
    (e.UpdateInstrumentsPhase L p).m_MonitoredOrderBook = e.m_MonitoredOrderBook := by
  unfold MatchingEngine.UpdateInstrumentsPhase
  split_ifs <;> rfl

theorem UpdateInstrumentsPhase_config (L : OrderBookLogic) (p : TradingPhase)
    (e : MatchingEngine) :
    (e.UpdateInstrumentsPhase L p).m_StartTime = e.m_StartTime ∧
    (e.UpdateInstrumentsPhase L p).m_StopTime = e.m_StopTime ∧
    (e.UpdateInstrumentsPhase L p).m_OpeningAuctionDuration = e.m_OpeningAuctionDuration ∧
    (e.UpdateInstrumentsPhase L p).m_ClosingAuctionDuration = e.m_ClosingAuctionDuration := by
  unfold MatchingEngine.UpdateInstrumentsPhase
  split_ifs <;> exact ⟨rfl, rfl, rfl, rfl⟩

theorem SetGlobalPhase_accepted (L : OrderBookLogic) (now : Int) (p : TradingPhase)
    (e : MatchingEngine) (h : (e.SetGlobalPhase L now p).1 = true) :
    ∃ ae, e.SetGlobalPhase L now p =
      (true, MatchingEngine.UpdateInstrumentsPhase L p { e with m_AuctionEnd := ae }) := by
  cases p
  · exact ⟨now + e.m_OpeningAuctionDuration, by
      simp [MatchingEngine.SetGlobalPhase, TradingPhase.toNat]⟩
  · exact ⟨e.m_AuctionEnd, by simp [MatchingEngine.SetGlobalPhase, TradingPhase.toNat]⟩
  · exact ⟨now + e.m_ClosingAuctionDuration, by
      simp [MatchingEngine.SetGlobalPhase, TradingPhase.toNat]⟩
  · exact ⟨e.m_AuctionEnd, by simp [MatchingEngine.SetGlobalPhase, TradingPhase.toNat]⟩
  · simp [MatchingEngine.SetGlobalPhase, TradingPhase.toNat] at h

theorem CheckOrderBooks_nil (L : OrderBookLogic) (Now : Int) (e : MatchingEngine)
    (h : e.m_MonitoredOrderBook = []) : e.CheckOrderBooks L Now = e := by
  cases e
  simp only at h
  subst h
  rfl

theorem CheckOrderBooks_monitored (L : OrderBookLogic) (Now : Int) (e : MatchingEngine) :
    (e.CheckOrderBooks L Now).m_MonitoredOrderBook =
      e.m_MonitoredOrderBook.filter (fun k => !(auctionEnded e.m_OrderBookContainer Now k)) :=
  (checkLoop_spec L Now e.m_GlobalPhase e.m_MonitoredOrderBook e.m_OrderBookContainer).1

theorem EngineListen_CLOSE (L : OrderBookLogic) (now : Int) (e : MatchingEngine)
    (h : e.m_GlobalPhase = .CLOSE) :
    e.EngineListen L now =
      if e.m_StartTime < now ∧ now < e.m_StopTime then
        some (MatchingEngine.UpdateInstrumentsPhase L .OPENING_AUCTION
          { e.CheckOrderBooks L now with m_AuctionEnd := now + e.m_OpeningAuctionDuration })
      else some (e.CheckOrderBooks L now) := by
  have h1 : (e.CheckOrderBooks L now).m_GlobalPhase = .CLOSE := h
  simp only [MatchingEngine.EngineListen, MatchingEngine.GetGlobalPhase, h1]
  by_cases ha : e.m_StartTime < now <;> by_cases hb : now < e.m_StopTime <;>
    simp [ha, hb, MatchingEngine.CheckOrderBooks]

theorem EngineListen_OPENING_AUCTION (L : OrderBookLogic) (now : Int) (e : MatchingEngine)
    (h : e.m_GlobalPhase = .OPENING_AUCTION) :
    e.EngineListen L now =
      if e.m_AuctionEnd < now then
        some ((e.CheckOrderBooks L now).UpdateInstrumentsPhase L .CONTINUOUS_TRADING)
      else some (e.CheckOrderBooks L now) := by
  have h1 : (e.CheckOrderBooks L now).m_GlobalPhase = .OPENING_AUCTION := h
  simp only [MatchingEngine.EngineListen, MatchingEngine.GetGlobalPhase, h1]
  by_cases ha : e.m_AuctionEnd < now <;> simp [ha, MatchingEngine.CheckOrderBooks]

theorem EngineListen_CONTINUOUS_TRADING (L : OrderBookLogic) (now : Int) (e : MatchingEngine)
    (h : e.m_GlobalPhase = .CONTINUOUS_TRADING) :
    e.EngineListen L now =
      if e.m_StartTime < now ∧ now < e.m_StopTime then some (e.CheckOrderBooks L now)
      else
        some (MatchingEngine.UpdateInstrumentsPhase L .CLOSING_AUCTION
          { e.CheckOrderBooks L now with m_AuctionEnd := now + e.m_ClosingAuctionDuration }) := by
  have h1 : (e.CheckOrderBooks L now).m_GlobalPhase = .CONTINUOUS_TRADING := h
  simp only [MatchingEngine.EngineListen, MatchingEngine.GetGlobalPhase, h1]
  by_cases ha : e.m_StartTime < now <;> by_cases hb : now < e.m_StopTime <;>
    simp [ha, hb, MatchingEngine.CheckOrderBooks]

theorem EngineListen_CLOSING_AUCTION (L : OrderBookLogic) (now : Int) (e : MatchingEngine)
    (h : e.m_GlobalPhase = .CLOSING_AUCTION) :
    e.EngineListen L now =
      if e.m_AuctionEnd < now then
        ((e.CheckOrderBooks L now).UpdateInstrumentsPhase L .CLOSE).CancelAllOrders
      else some (e.CheckOrderBooks L now) := by
  have h1 : (e.CheckOrderBooks L now).m_GlobalPhase = .CLOSING_AUCTION := h
  simp only [MatchingEngine.EngineListen, MatchingEngine.GetGlobalPhase, h1]
  by_cases ha : e.m_AuctionEnd < now <;> simp [ha, MatchingEngine.CheckOrderBooks]

theorem construct_closed :
    MatchingEngine.construct.m_GlobalPhase = .CLOSE ∧
    MatchingEngine.construct.m_MonitoredOrderBook = [] := ⟨rfl, rfl⟩

theorem CancelAllOrders_of_nil (e : MatchingEngine) (h : e.m_MonitoredOrderBook = []) :
    e.CancelAllOrders =
      some { e with
        m_OrderBookContainer :=
          e.m_OrderBookContainer.map (fun kb => (kb.1, kb.2.CancelAllOrders)) } := by
  simp [MatchingEngine.CancelAllOrders, h]

theorem CancelAllOrders_of_ne_nil (e : MatchingEngine) (h : e.m_MonitoredOrderBook ≠ []) :
    e.CancelAllOrders = none := by
  simp [MatchingEngine.CancelAllOrders, h]

theorem CheckOrderBooks_monitored_eq_nil_iff (L : OrderBookLogic) (Now : Int)
    (e : MatchingEngine) :
    (e.CheckOrderBooks L Now).m_MonitoredOrderBook = [] ↔
      ∀ k ∈ e.m_MonitoredOrderBook, auctionEnded e.m_OrderBookContainer Now k = true := by
  rw [CheckOrderBooks_monitored, List.filter_eq_nil_iff]
  constructor
  · intro h k hk
    simpa using h k hk
  · intro h k hk
    simpa using h k hk

/-- The state a closing tick reaches when no book stays monitored. -/
theorem close_session (L : OrderBookLogic) (e1 : MatchingEngine)
    (hp : e1.m_GlobalPhase = .CLOSING_AUCTION) (hm : e1.m_MonitoredOrderBook = []) :
    ∃ e2, (e1.UpdateInstrumentsPhase L .CLOSE).CancelAllOrders = some e2 ∧
      e2.m_GlobalPhase = .CLOSE ∧ e2.m_MonitoredOrderBook = [] ∧
      e2.m_OrderBookContainer = e1.m_OrderBookContainer.map
        (fun kb => (kb.1, (kb.2.SetTradingPhase L .CLOSE).CancelAllOrders)) ∧
      ∀ kb ∈ e2.m_OrderBookContainer,
        kb.2.phase = .CLOSE ∧ kb.2.bids = [] ∧ kb.2.asks = [] := by
  have hne : TradingPhase.CLOSE ≠ e1.m_GlobalPhase := by rw [hp]; decide
  have hm2 : (e1.UpdateInstrumentsPhase L .CLOSE).m_MonitoredOrderBook = [] := by
    rw [UpdateInstrumentsPhase_monitored, hm]
  rw [CancelAllOrders_of_nil _ hm2]
  have hb : (e1.UpdateInstrumentsPhase L .CLOSE).m_OrderBookContainer.map
      (fun kb => (kb.1, kb.2.CancelAllOrders)) =
      e1.m_OrderBookContainer.map
        (fun kb => (kb.1, (kb.2.SetTradingPhase L .CLOSE).CancelAllOrders)) := by
    rw [UpdateInstrumentsPhase_books_of_ne L _ _ hne, List.map_map]
    rfl
  refine ⟨_, rfl, UpdateInstrumentsPhase_globalPhase L _ _, hm2, hb, ?_⟩
  intro kb hkb
  simp only [] at hkb
  rw [hb] at hkb
  obtain ⟨kb0, _, rfl⟩ := List.mem_map.1 hkb
  refine ⟨?_, rfl, rfl⟩
  show (kb0.2.SetTradingPhase L .CLOSE).phase = .CLOSE
  exact SetTradingPhase_phase L _ _

/-! ## General lemmas on sequences of operations -/

theorem next_ne_intraday (p : TradingPhase) (h : p ≠ .INTRADAY_AUCTION) :
    p.next ≠ .INTRADAY_AUCTION := by
  cases p <;> simp_all [TradingPhase.next]

theorem SetGlobalPhase_globalPhase (L : OrderBookLogic) (now : Int) (p : TradingPhase)
    (e : MatchingEngine) :
    (e.SetGlobalPhase L now p).2.m_GlobalPhase = e.m_GlobalPhase ∨
      ((e.SetGlobalPhase L now p).2.m_GlobalPhase = p ∧ p ≠ .INTRADAY_AUCTION) := by
  cases hr : (e.SetGlobalPhase L now p).1 with
  | false =>
    left
    cases p <;> simp_all [MatchingEngine.SetGlobalPhase, TradingPhase.toNat]
  | true =>
    right
    obtain ⟨ae, hae⟩ := SetGlobalPhase_accepted L now p e hr
    refine ⟨by rw [hae]; exact UpdateInstrumentsPhase_globalPhase L p _, ?_⟩
    intro hp
    subst hp
    simp [MatchingEngine.SetGlobalPhase, TradingPhase.toNat] at hr

theorem EngineListen_globalPhase_of_some (L : OrderBookLogic) (now : Int)
    (e e2 : MatchingEngine) (h : e.EngineListen L now = some e2) :
    e2.m_GlobalPhase = e.m_GlobalPhase ∨ e2.m_GlobalPhase = e.m_GlobalPhase.next := by
  cases hp : e.m_GlobalPhase with
  | OPENING_AUCTION =>
    rw [EngineListen_OPENING_AUCTION L now e hp] at h
    split_ifs at h <;> cases h
    · exact Or.inr (UpdateInstrumentsPhase_globalPhase L _ _)
    · exact Or.inl hp
  | CONTINUOUS_TRADING =>
    rw [EngineListen_CONTINUOUS_TRADING L now e hp] at h
    split_ifs at h <;> cases h
    · exact Or.inl hp
    · exact Or.inr (UpdateInstrumentsPhase_globalPhase L _ _)
  | CLOSING_AUCTION =>
    rw [EngineListen_CLOSING_AUCTION L now e hp] at h
    split_ifs at h
    · right
      unfold MatchingEngine.CancelAllOrders at h
      split_ifs at h
      cases h
      exact UpdateInstrumentsPhase_globalPhase L _ _
    · cases h
      exact Or.inl hp
  | CLOSE =>
    rw [EngineListen_CLOSE L now e hp] at h
    split_ifs at h <;> cases h
    · exact Or.inr (UpdateInstrumentsPhase_globalPhase L _ _)
    · exact Or.inl hp
  | INTRADAY_AUCTION =>
    have h1 : (e.CheckOrderBooks L now).m_GlobalPhase = .INTRADAY_AUCTION := hp
    simp only [MatchingEngine.EngineListen, MatchingEngine.GetGlobalPhase, h1] at h
    cases h
    exact Or.inl hp

theorem commit_globalPhase (e : MatchingEngine) (k : Nat) (r : BookResult) :
    (e.commit k r).m_GlobalPhase = e.m_GlobalPhase := rfl

theorem Insert_globalPhase (L : OrderBookLogic) (o : Order) (k : Nat) (e : MatchingEngine) :
    (e.Insert L o k).2.m_GlobalPhase = e.m_GlobalPhase := by
  unfold MatchingEngine.Insert
  split <;> rfl

theorem Modify_globalPhase (L : OrderBookLogic) (r : OrderReplace) (k : Nat)
    (e : MatchingEngine) : (e.Modify L r k).2.m_GlobalPhase = e.m_GlobalPhase := by
  unfold MatchingEngine.Modify
  split <;> rfl

theorem Delete_globalPhase (L : OrderBookLogic) (oid cid : Nat) (w : OrderWay) (k : Nat)
    (e : MatchingEngine) : (e.Delete L oid cid w k).2.m_GlobalPhase = e.m_GlobalPhase := by
  unfold MatchingEngine.Delete
  split <;> rfl

theorem EnterIntradayAuction_globalPhase (now : Int) (k : Nat) (e : MatchingEngine) :
    (e.EnterIntradayAuction now k).m_GlobalPhase = e.m_GlobalPhase := by
  unfold MatchingEngine.EnterIntradayAuction
  split
  · split_ifs <;> rfl
  · rfl

theorem applyOp_globalPhase (L : OrderBookLogic) (op : EngineOp) (e e2 : MatchingEngine)
    (h0 : e.m_GlobalPhase ≠ .INTRADAY_AUCTION) (h : applyOp L op e = some e2) :
    e2.m_GlobalPhase ≠ .INTRADAY_AUCTION := by
  cases op with
  | SetGlobalPhase now p =>
    simp only [applyOp, Option.some.injEq] at h
    subst h
    rcases SetGlobalPhase_globalPhase L now p e with h1 | ⟨h1, h2⟩
    · rw [h1]; exact h0
    · rw [h1]; exact h2
  | EngineListen now =>
    rcases EngineListen_globalPhase_of_some L now e e2 h with h1 | h1
    · rw [h1]; exact h0
    · rw [h1]; exact next_ne_intraday _ h0
  | CheckOrderBooks now =>
    simp only [applyOp, Option.some.injEq] at h
    subst h
    exact h0
  | EnterIntradayAuction now k =>
    simp only [applyOp, Option.some.injEq] at h
    subst h
    rw [EnterIntradayAuction_globalPhase]; exact h0
  | Insert o k =>
    simp only [applyOp, Option.some.injEq] at h
    subst h
    rw [Insert_globalPhase]; exact h0
  | Modify r k =>
    simp only [applyOp, Option.some.injEq] at h
    subst h
    rw [Modify_globalPhase]; exact h0
  | Delete oid cid w k =>
    simp only [applyOp, Option.some.injEq] at h
    subst h
    rw [Delete_globalPhase]; exact h0

theorem runOps_globalPhase (L : OrderBookLogic) (ops : List EngineOp) :
    ∀ e e2 : MatchingEngine, e.m_GlobalPhase ≠ .INTRADAY_AUCTION →
      runOps L ops e = some e2 → e2.m_GlobalPhase ≠ .INTRADAY_AUCTION := by
  induction ops with
  | nil =>
    intro e e2 h0 h
    simp only [runOps, Option.some.injEq] at h
    subst h
    exact h0
  | cons op rest ih =>
    intro e e2 h0 h
    simp only [runOps] at h
    cases h1 : applyOp L op e with
    | none => rw [h1] at h; cases h
    | some e1 =>
      rw [h1] at h
      exact ih e1 e2 (applyOp_globalPhase L op e e1 h0 h1) h

theorem global_of_ne_intraday (p : TradingPhase) (h : p ≠ .INTRADAY_AUCTION) :
    p = .OPENING_AUCTION ∨ p = .CONTINUOUS_TRADING ∨ p = .CLOSING_AUCTION ∨ p = .CLOSE := by
  cases p <;> simp_all

/-! ## General lemmas on the configuration -/

theorem bind_ne_none {α β : Type} {o : Option α} {f : α → Option β} {v : β}
    (h : o.bind f = some v) : o ≠ none := by
  intro hn
  rw [hn] at h
  cases h

theorem LoadInstruments_of_missing (env : Environment) (iConfig : List (String × String))
    (e : MatchingEngine) (h : ptreeGet iConfig "Engine.instrument_db_path" = none) :
    e.LoadInstruments env iConfig = (false, e) := by
  simp [MatchingEngine.LoadInstruments, h]

theorem LoadInstruments_true (env : Environment) (iConfig : List (String × String))
    (e : MatchingEngine) (h : (e.LoadInstruments env iConfig).1 = true) :
    ptreeGet iConfig "Engine.instrument_db_path" ≠ none := by
  intro hn
  rw [LoadInstruments_of_missing env iConfig e hn] at h
  cases h

theorem LoadConfiguration_true (env : Environment) (iConfig : List (String × String))
    (e e2 : MatchingEngine) (h : e.LoadConfiguration env iConfig = some (true, e2)) :
    ptreeGet iConfig "Engine.start_time" ≠ none ∧
    ptreeGet iConfig "Engine.stop_time" ≠ none ∧
    ptreeGet iConfig "Engine.intraday_auction_duration" ≠ none ∧
    ptreeGet iConfig "Engine.opening_auction_duration" ≠ none ∧
    ptreeGet iConfig "Engine.closing_auction_duration" ≠ none ∧
    ptreeGet iConfig "Engine.max_price_deviation" ≠ none := by
  unfold MatchingEngine.LoadConfiguration at h
  repeat' split at h
  all_goals first
    | (simp at h; done)
    | (rename_i h3 _ _ h4 _ _ h5 _ _ h6
       have k3 := bind_ne_none h3
       have k4 := bind_ne_none h4
       have k5 := bind_ne_none h5
       have k6 := bind_ne_none h6
       simp_all)

theorem LoadConfiguration_of_missing (env : Environment) (iConfig : List (String × String))
    (e : MatchingEngine)
    (hstart : ∀ s, ptreeGet iConfig "Engine.start_time" = some s →
      env.duration_from_string s ≠ none)
    (hstop : ∀ s, ptreeGet iConfig "Engine.stop_time" = some s →
      env.duration_from_string s ≠ none)
    (h : ptreeGet iConfig "Engine.start_time" = none ∨
      ptreeGet iConfig "Engine.stop_time" = none ∨
      ptreeGet iConfig "Engine.intraday_auction_duration" = none ∨
      ptreeGet iConfig "Engine.opening_auction_duration" = none ∨
      ptreeGet iConfig "Engine.closing_auction_duration" = none ∨
      ptreeGet iConfig "Engine.max_price_deviation" = none) :
    ∃ e2, e.LoadConfiguration env iConfig = some (false, e2) := by
  unfold MatchingEngine.LoadConfiguration
  repeat' split
  all_goals first
    | exact ⟨_, rfl⟩
    | (rename_i h3 _ _ h4 _ _ h5 _ _ h6
       have k3 := bind_ne_none h3
       have k4 := bind_ne_none h4
       have k5 := bind_ne_none h5
       have k6 := bind_ne_none h6
       simp_all)
    | simp_all

theorem LoadConfiguration_of_missing_time (env : Environment)
    (iConfig : List (String × String)) (e : MatchingEngine)
    (h : ptreeGet iConfig "Engine.start_time" = none ∨
      ptreeGet iConfig "Engine.stop_time" = none) :
    e.LoadConfiguration env iConfig = some (false, e) := by
  unfold MatchingEngine.LoadConfiguration
  repeat' split
  all_goals simp_all

theorem Configure_of_LoadInstruments_false (env : Environment)
    (iConfig : List (String × String)) (e : MatchingEngine)
    (h : (e.LoadInstruments env iConfig).1 = false) :
    e.Configure env iConfig = some (false, (e.LoadInstruments env iConfig).2) := by
  simp [MatchingEngine.Configure, h]

theorem Configure_of_LoadConfiguration_false (env : Environment)
    (iConfig : List (String × String)) (e e2 : MatchingEngine)
    (h : (e.LoadInstruments env iConfig).2.LoadConfiguration env iConfig = some (false, e2)) :
    ∃ e3, e.Configure env iConfig = some (false, e3) := by
  cases hl : (e.LoadInstruments env iConfig).1 with
  | false => exact ⟨_, Configure_of_LoadInstruments_false env iConfig e hl⟩
  | true => exact ⟨e2, by simp [MatchingEngine.Configure, hl, h]⟩

theorem Configure_true (env : Environment) (iConfig : List (String × String))
    (e e2 : MatchingEngine) (h : e.Configure env iConfig = some (true, e2)) :
    (e.LoadInstruments env iConfig).1 = true ∧
    (e.LoadInstruments env iConfig).2.LoadConfiguration env iConfig = some (true, e2) := by
  cases hl : (e.LoadInstruments env iConfig).1 with
  | false =>
    rw [Configure_of_LoadInstruments_false env iConfig e hl] at h
    simp at h
  | true =>
    refine ⟨rfl, ?_⟩
    simp only [MatchingEngine.Configure, hl] at h
    cases hc : (e.LoadInstruments env iConfig).2.LoadConfiguration env iConfig with
    | none => simp [hc] at h
    | some r2 =>
      obtain ⟨b, e3⟩ := r2
      cases b <;> simp_all

/-! ## Dispatch of the order operations -/

/-- C1: for a product id that is not a key of the book container, `Insert`, `Modify`
and `Delete` return false and leave the whole engine state unchanged; for a product id
that is a key, each returns the result of the same operation on the book stored under
that key. -/
theorem dispatch_to_addressed_book (L : OrderBookLogic) (e : MatchingEngine)
    (iProductID : Nat) (iOrder : Order) (iOrderReplace : OrderReplace)
    (iOrderID iClientID : Nat) (iWay : OrderWay) :
    (iProductID ∉ bookKeys e.m_OrderBookContainer →
      e.Insert L iOrder iProductID = (false, e) ∧
      e.Modify L iOrderReplace iProductID = (false, e) ∧
      e.Delete L iOrderID iClientID iWay iProductID = (false, e)) ∧
    (iProductID ∈ bookKeys e.m_OrderBookContainer →
      ∃ book, findBook e.m_OrderBookContainer iProductID = some book ∧
        (iProductID, book) ∈ e.m_OrderBookContainer ∧
        (e.Insert L iOrder iProductID).1 = (L.Insert iOrder book).accepted ∧
        (e.Modify L iOrderReplace iProductID).1 = (L.Modify iOrderReplace book).accepted ∧
        (e.Delete L iOrderID iClientID iWay iProductID).1 =
          (L.Delete iOrderID iClientID iWay book).accepted) := by
  constructor
  · intro h
    have hnone := (findBook_eq_none_iff e.m_OrderBookContainer iProductID).2 h
    simp [MatchingEngine.Insert, MatchingEngine.Modify, MatchingEngine.Delete, hnone]
  · intro h
    cases hfind : findBook e.m_OrderBookContainer iProductID with
    | none => exact absurd h ((findBook_eq_none_iff _ _).1 hfind)
    | some book =>
      refine ⟨book, rfl, findBook_some_mem _ _ _ hfind, ?_, ?_, ?_⟩ <;>
        simp [MatchingEngine.Insert, MatchingEngine.Modify, MatchingEngine.Delete, hfind]

/-- Instance of C1: product id 9 is unknown to an engine whose only book is stored
under 7, so the three operations are refused and the engine is unchanged. -/
theorem dispatch_to_addressed_book_witness :
    9 ∉ bookKeys
        (sampleEngine .CONTINUOUS_TRADING 0 [(7, sampleBook .CONTINUOUS_TRADING 0)] []).m_OrderBookContainer ∧
    ((sampleEngine .CONTINUOUS_TRADING 0 [(7, sampleBook .CONTINUOUS_TRADING 0)] []).Insert
        sampleLogic sampleOrder 9 =
        (false, sampleEngine .CONTINUOUS_TRADING 0 [(7, sampleBook .CONTINUOUS_TRADING 0)] []) ∧
      (sampleEngine .CONTINUOUS_TRADING 0 [(7, sampleBook .CONTINUOUS_TRADING 0)] []).Modify
        sampleLogic sampleReplace 9 =
        (false, sampleEngine .CONTINUOUS_TRADING 0 [(7, sampleBook .CONTINUOUS_TRADING 0)] []) ∧
      (sampleEngine .CONTINUOUS_TRADING 0 [(7, sampleBook .CONTINUOUS_TRADING 0)] []).Delete
        sampleLogic 1 1 OrderWay.BUY 9 =
        (false, sampleEngine .CONTINUOUS_TRADING 0 [(7, sampleBook .CONTINUOUS_TRADING 0)] [])) :=
  ⟨by decide,
   (dispatch_to_addressed_book sampleLogic
      (sampleEngine .CONTINUOUS_TRADING 0 [(7, sampleBook .CONTINUOUS_TRADING 0)] [])
      9 sampleOrder sampleReplace 1 1 OrderWay.BUY).1 (by decide)⟩

/-! ## Setting the global phase -/

/-- C2: `SetGlobalPhase(p)` returns true exactly for the four global phases
`OPENING_AUCTION`, `CONTINUOUS_TRADING`, `CLOSING_AUCTION`, `CLOSE`; in particular it
returns false for `INTRADAY_AUCTION`. -/
theorem SetGlobalPhase_accepts_iff (L : OrderBookLogic) (now : Int) (p : TradingPhase)
    (e : MatchingEngine) :
    ((e.SetGlobalPhase L now p).1 = true ↔
      (p = .OPENING_AUCTION ∨ p = .CONTINUOUS_TRADING ∨ p = .CLOSING_AUCTION ∨ p = .CLOSE)) ∧
    (e.SetGlobalPhase L now .INTRADAY_AUCTION).1 = false := by
  constructor
  · cases p <;> simp [MatchingEngine.SetGlobalPhase, TradingPhase.toNat]
  · simp [MatchingEngine.SetGlobalPhase, TradingPhase.toNat]

/-- C3: when `SetGlobalPhase(p)` rejects `p`, the engine state after the call is the
state before it (global phase, auction end, monitored books and every book). -/
theorem SetGlobalPhase_rejected_unchanged (L : OrderBookLogic) (now : Int)
    (p : TradingPhase) (e : MatchingEngine)
    (h : (e.SetGlobalPhase L now p).1 = false) :
    (e.SetGlobalPhase L now p).2 = e := by
  cases p <;> simp_all [MatchingEngine.SetGlobalPhase, TradingPhase.toNat]

/-- Instance of C3: `INTRADAY_AUCTION` is rejected by an engine in continuous trading
with a book in intraday auction, and nothing changes. -/
theorem SetGlobalPhase_rejected_unchanged_witness :
    ((sampleEngine .CONTINUOUS_TRADING 0 [(7, sampleBook .INTRADAY_AUCTION 50)] [7]).SetGlobalPhase
        sampleLogic 40 .INTRADAY_AUCTION).1 = false ∧
    ((sampleEngine .CONTINUOUS_TRADING 0 [(7, sampleBook .INTRADAY_AUCTION 50)] [7]).SetGlobalPhase
        sampleLogic 40 .INTRADAY_AUCTION).2 =
      sampleEngine .CONTINUOUS_TRADING 0 [(7, sampleBook .INTRADAY_AUCTION 50)] [7] :=
  ⟨by decide,
   SetGlobalPhase_rejected_unchanged sampleLogic 40 .INTRADAY_AUCTION
     (sampleEngine .CONTINUOUS_TRADING 0 [(7, sampleBook .INTRADAY_AUCTION 50)] [7]) (by decide)⟩

/-- C4, as stated, fails: an engine in `CONTINUOUS_TRADING` with a book in
`INTRADAY_AUCTION` accepts `SetGlobalPhase(CONTINUOUS_TRADING)` and the book is still in
`INTRADAY_AUCTION` afterwards, because `UpdateInstrumentsPhase` does nothing when the
new phase is the current global phase. -/
theorem SetGlobalPhase_same_phase_counterexample :
    ((sampleEngine .CONTINUOUS_TRADING 0 [(7, sampleBook .INTRADAY_AUCTION 50)] [7]).SetGlobalPhase
        sampleLogic 40 .CONTINUOUS_TRADING).1 = true ∧
    ((sampleEngine .CONTINUOUS_TRADING 0 [(7, sampleBook .INTRADAY_AUCTION 50)] [7]).SetGlobalPhase
        sampleLogic 40 .CONTINUOUS_TRADING).2.m_GlobalPhase = .CONTINUOUS_TRADING ∧
    ¬ (∀ kb ∈ ((sampleEngine .CONTINUOUS_TRADING 0
          [(7, sampleBook .INTRADAY_AUCTION 50)] [7]).SetGlobalPhase
          sampleLogic 40 .CONTINUOUS_TRADING).2.m_OrderBookContainer,
        kb.2.phase = .CONTINUOUS_TRADING) := by
  decide

/-- C4, amended: after a successful `SetGlobalPhase(p)` the global phase is `p`; when
`p` differs from the global phase before the call, `SetTradingPhase(p)` has been applied
to every book of the container, so every book is in phase `p`; when `p` is the global
phase before the call, no book is touched. -/
theorem SetGlobalPhase_propagates (L : OrderBookLogic) (now : Int) (p : TradingPhase)
    (e : MatchingEngine) (h : (e.SetGlobalPhase L now p).1 = true) :
    (e.SetGlobalPhase L now p).2.m_GlobalPhase = p ∧
    (p ≠ e.m_GlobalPhase →
      (e.SetGlobalPhase L now p).2.m_OrderBookContainer =
        e.m_OrderBookContainer.map (fun kb => (kb.1, kb.2.SetTradingPhase L p)) ∧
      ∀ kb ∈ (e.SetGlobalPhase L now p).2.m_OrderBookContainer, kb.2.phase = p) ∧
    (p = e.m_GlobalPhase →
      (e.SetGlobalPhase L now p).2.m_OrderBookContainer = e.m_OrderBookContainer) := by
  obtain ⟨ae, hae⟩ := SetGlobalPhase_accepted L now p e h
  rw [hae]
  refine ⟨UpdateInstrumentsPhase_globalPhase L p _, ?_, ?_⟩
  · intro hg
    have hb := UpdateInstrumentsPhase_books_of_ne L p { e with m_AuctionEnd := ae } hg
    refine ⟨hb, ?_⟩
    intro kb hkb
    simp only [] at hkb
    rw [hb] at hkb
    obtain ⟨kb0, _, rfl⟩ := List.mem_map.1 hkb
    exact SetTradingPhase_phase L p kb0.2
  · intro hg
    have hb := UpdateInstrumentsPhase_of_eq L p { e with m_AuctionEnd := ae } hg
    simp only [] at hb ⊢
    rw [hb]

/-- Instance of amended C4: an engine in `CONTINUOUS_TRADING` with a book in
`INTRADAY_AUCTION` is moved to `CLOSING_AUCTION`, and the book with it. -/
theorem SetGlobalPhase_propagates_witness :
    ((sampleEngine .CONTINUOUS_TRADING 0 [(7, sampleBook .INTRADAY_AUCTION 50)] [7]).SetGlobalPhase
        sampleLogic 40 .CLOSING_AUCTION).1 = true ∧
    TradingPhase.CLOSING_AUCTION ≠
      (sampleEngine .CONTINUOUS_TRADING 0 [(7, sampleBook .INTRADAY_AUCTION 50)] [7]).m_GlobalPhase ∧
    ∀ kb ∈ ((sampleEngine .CONTINUOUS_TRADING 0
          [(7, sampleBook .INTRADAY_AUCTION 50)] [7]).SetGlobalPhase
          sampleLogic 40 .CLOSING_AUCTION).2.m_OrderBookContainer,
        kb.2.phase = .CLOSING_AUCTION :=
  ⟨by decide, by decide,
   ((SetGlobalPhase_propagates sampleLogic 40 .CLOSING_AUCTION
      (sampleEngine .CONTINUOUS_TRADING 0 [(7, sampleBook .INTRADAY_AUCTION 50)] [7])
      (by decide)).2.1 (by decide)).2⟩

/-! ## Monitored books -/

/-- C5: `CheckOrderBooks(now)` keeps, in their order, exactly the monitored books whose
auction has not ended before `now` (`auction_end >= now`) and removes the others; the
book under each product id is afterwards the result of `SetTradingPhase(global_phase)`
when it was monitored with `auction_end < now`, and is untouched otherwise; nothing else
of the engine changes. -/
theorem CheckOrderBooks_restores_ended (L : OrderBookLogic) (Now : Int) (e : MatchingEngine) :
    (e.CheckOrderBooks L Now).m_MonitoredOrderBook =
      e.m_MonitoredOrderBook.filter (fun k => !(auctionEnded e.m_OrderBookContainer Now k)) ∧
    bookKeys (e.CheckOrderBooks L Now).m_OrderBookContainer = bookKeys e.m_OrderBookContainer ∧
    (∀ k, findBook (e.CheckOrderBooks L Now).m_OrderBookContainer k =
      (findBook e.m_OrderBookContainer k).map (fun b =>
        if k ∈ e.m_MonitoredOrderBook ∧ b.auctionEnd < Now
        then b.SetTradingPhase L e.m_GlobalPhase else b)) ∧
    e.CheckOrderBooks L Now =
      { e with
        m_MonitoredOrderBook := (e.CheckOrderBooks L Now).m_MonitoredOrderBook,
        m_OrderBookContainer := (e.CheckOrderBooks L Now).m_OrderBookContainer } := by
  obtain ⟨h1, h2, h3⟩ :=
    checkLoop_spec L Now e.m_GlobalPhase e.m_MonitoredOrderBook e.m_OrderBookContainer
  exact ⟨h1, h2, h3, rfl⟩

/-! ## The session clock -/

/-- C6, as stated, fails at `now = start_time`: the open period of `EngineListen` is
`now > m_StartTime && now < m_StopTime`, so an engine in `CLOSE` with start time 100
and stop time 200 stays in `CLOSE` on a tick at 100. -/
theorem EngineListen_CLOSE_at_start_counterexample :
    (sampleEngine .CLOSE 0 [(7, sampleBook .CLOSE 0)] []).m_StartTime ≤ 100 ∧
    (100 : Int) < (sampleEngine .CLOSE 0 [(7, sampleBook .CLOSE 0)] []).m_StopTime ∧
    ((sampleEngine .CLOSE 0 [(7, sampleBook .CLOSE 0)] []).EngineListen sampleLogic 100).map
      (fun e2 => (e2.m_GlobalPhase, e2.m_AuctionEnd)) = some (.CLOSE, 0) := by
  decide

/-- C6, amended: from global phase `CLOSE`, a tick at `now` with
`start_time < now < stop_time` (start time excluded) moves the global phase to
`OPENING_AUCTION` and sets the auction end to `now + opening_auction_duration`; at any
other `now` the global phase stays `CLOSE` and the auction end is unchanged. -/
theorem EngineListen_from_CLOSE (L : OrderBookLogic) (now : Int) (e : MatchingEngine)
    (h : e.m_GlobalPhase = .CLOSE) :
    (e.m_StartTime < now ∧ now < e.m_StopTime →
      ∃ e2, e.EngineListen L now = some e2 ∧ e2.m_GlobalPhase = .OPENING_AUCTION ∧
        e2.m_AuctionEnd = now + e.m_OpeningAuctionDuration) ∧
    (¬ (e.m_StartTime < now ∧ now < e.m_StopTime) →
      ∃ e2, e.EngineListen L now = some e2 ∧ e2.m_GlobalPhase = .CLOSE ∧
        e2.m_AuctionEnd = e.m_AuctionEnd) := by
  rw [EngineListen_CLOSE L now e h]
  constructor
  · intro hw
    rw [if_pos hw]
    refine ⟨_, rfl, UpdateInstrumentsPhase_globalPhase L _ _, ?_⟩
    rw [UpdateInstrumentsPhase_auctionEnd]
  · intro hw
    rw [if_neg hw]
    exact ⟨_, rfl, h, rfl⟩

/-- Instance of amended C6: a tick at 120 opens the session of an engine whose window
is from 100 to 200. -/
theorem EngineListen_from_CLOSE_witness :
    (sampleEngine .CLOSE 0 [(7, sampleBook .CLOSE 0)] []).m_GlobalPhase = .CLOSE ∧
    ((sampleEngine .CLOSE 0 [(7, sampleBook .CLOSE 0)] []).m_StartTime < 120 ∧
      (120 : Int) < (sampleEngine .CLOSE 0 [(7, sampleBook .CLOSE 0)] []).m_StopTime) ∧
    ∃ e2, (sampleEngine .CLOSE 0 [(7, sampleBook .CLOSE 0)] []).EngineListen sampleLogic 120 =
        some e2 ∧ e2.m_GlobalPhase = .OPENING_AUCTION ∧
      e2.m_AuctionEnd =
        120 + (sampleEngine .CLOSE 0 [(7, sampleBook .CLOSE 0)] []).m_OpeningAuctionDuration :=
  ⟨by decide, by decide,
   (EngineListen_from_CLOSE sampleLogic 120
      (sampleEngine .CLOSE 0 [(7, sampleBook .CLOSE 0)] []) (by decide)).1 (by decide)⟩

/-- C8, as stated, fails at `now = start_time`: the code's open period excludes the
start time, so an engine in `CONTINUOUS_TRADING` with start time 100 and stop time 200
moves to `CLOSING_AUCTION` on a tick at 100, with auction end 100 + 10. -/
theorem EngineListen_CONTINUOUS_at_start_counterexample :
    (sampleEngine .CONTINUOUS_TRADING 0 [(7, sampleBook .CONTINUOUS_TRADING 0)] []).m_StartTime
      ≤ 100 ∧
    (100 : Int) <
      (sampleEngine .CONTINUOUS_TRADING 0 [(7, sampleBook .CONTINUOUS_TRADING 0)] []).m_StopTime ∧
    ((sampleEngine .CONTINUOUS_TRADING 0 [(7, sampleBook .CONTINUOUS_TRADING 0)] []).EngineListen
      sampleLogic 100).map (fun e2 => (e2.m_GlobalPhase, e2.m_AuctionEnd)) =
      some (.CLOSING_AUCTION, 110) := by
  decide

/-- C8, amended: from global phase `CONTINUOUS_TRADING`, a tick at `now` moves the
global phase to `CLOSING_AUCTION`, with the auction end set to
`now + closing_auction_duration`, if and only if not `start_time < now < stop_time`
(start time excluded from the open window); otherwise the global phase stays
`CONTINUOUS_TRADING` and the auction end is unchanged. -/
theorem EngineListen_from_CONTINUOUS_TRADING (L : OrderBookLogic) (now : Int)
    (e : MatchingEngine) (h : e.m_GlobalPhase = .CONTINUOUS_TRADING) :
    (¬ (e.m_StartTime < now ∧ now < e.m_StopTime) →
      ∃ e2, e.EngineListen L now = some e2 ∧ e2.m_GlobalPhase = .CLOSING_AUCTION ∧
        e2.m_AuctionEnd = now + e.m_ClosingAuctionDuration) ∧
    (e.m_StartTime < now ∧ now < e.m_StopTime →
      ∃ e2, e.EngineListen L now = some e2 ∧ e2.m_GlobalPhase = .CONTINUOUS_TRADING ∧
        e2.m_AuctionEnd = e.m_AuctionEnd) := by
  rw [EngineListen_CONTINUOUS_TRADING L now e h]
  constructor
  · intro hw
    rw [if_neg hw]
    refine ⟨_, rfl, UpdateInstrumentsPhase_globalPhase L _ _, ?_⟩
    rw [UpdateInstrumentsPhase_auctionEnd]
  · intro hw
    rw [if_pos hw]
    exact ⟨_, rfl, h, rfl⟩

/-- Instance of amended C8: a tick at 200, the stop time, ends continuous trading. -/
theorem EngineListen_from_CONTINUOUS_TRADING_witness :
    (sampleEngine .CONTINUOUS_TRADING 0 [(7, sampleBook .CONTINUOUS_TRADING 0)] []).m_GlobalPhase =
      .CONTINUOUS_TRADING ∧
    ¬ ((sampleEngine .CONTINUOUS_TRADING 0 [(7, sampleBook .CONTINUOUS_TRADING 0)] []).m_StartTime
        < 200 ∧
      (200 : Int) <
        (sampleEngine .CONTINUOUS_TRADING 0 [(7, sampleBook .CONTINUOUS_TRADING 0)] []).m_StopTime) ∧
    ∃ e2, (sampleEngine .CONTINUOUS_TRADING 0
        [(7, sampleBook .CONTINUOUS_TRADING 0)] []).EngineListen sampleLogic 200 = some e2 ∧
      e2.m_GlobalPhase = .CLOSING_AUCTION ∧
      e2.m_AuctionEnd = 200 +
        (sampleEngine .CONTINUOUS_TRADING 0
          [(7, sampleBook .CONTINUOUS_TRADING 0)] []).m_ClosingAuctionDuration :=
  ⟨by decide, by decide,
   (EngineListen_from_CONTINUOUS_TRADING sampleLogic 200
      (sampleEngine .CONTINUOUS_TRADING 0 [(7, sampleBook .CONTINUOUS_TRADING 0)] [])
      (by decide)).1 (by decide)⟩

/-- C7, as stated, fails: the tests are `now > m_AuctionEnd` and
`Now > pBook->GetAuctionEnd()`. A tick at 150 of an engine whose auction ends at 150
leaves `OPENING_AUCTION` and `CLOSING_AUCTION` in place, and a monitored book whose
auction ends at 150 stays monitored, in `INTRADAY_AUCTION`. -/
theorem auction_end_equal_counterexample :
    ((sampleEngine .OPENING_AUCTION 150 [(7, sampleBook .OPENING_AUCTION 0)] []).EngineListen
      sampleLogic 150).map (fun e2 => e2.m_GlobalPhase) = some .OPENING_AUCTION ∧
    ((sampleEngine .CLOSING_AUCTION 150 [(7, sampleBook .CLOSING_AUCTION 0)] []).EngineListen
      sampleLogic 150).map (fun e2 => e2.m_GlobalPhase) = some .CLOSING_AUCTION ∧
    (sampleEngine .CONTINUOUS_TRADING 0 [(7, sampleBook .INTRADAY_AUCTION 150)] [7]).EngineListen
      sampleLogic 150 =
      some (sampleEngine .CONTINUOUS_TRADING 0 [(7, sampleBook .INTRADAY_AUCTION 150)] [7]) := by
  decide

/-- C7, amended: an auction-ending transition proceeds only when `now` is strictly
after the auction end. A tick from `OPENING_AUCTION` reaches `CONTINUOUS_TRADING` when
`auction_end < now` and stays in `OPENING_AUCTION` when `now <= auction_end`; a tick from
`CLOSING_AUCTION` stays there when `now <= auction_end` and reaches `CLOSE` when
`auction_end < now` and the auction of every monitored book has ended; and
`CheckOrderBooks(now)` restores a monitored book to the global phase and de-monitors it
when `book.auction_end < now`, and leaves it monitored and untouched when
`now <= book.auction_end`. -/
theorem auction_end_is_strict (L : OrderBookLogic) (now : Int) (e : MatchingEngine) :
    (e.m_GlobalPhase = .OPENING_AUCTION →
      ∃ e2, e.EngineListen L now = some e2 ∧
        (e.m_AuctionEnd < now → e2.m_GlobalPhase = .CONTINUOUS_TRADING) ∧
        (now ≤ e.m_AuctionEnd → e2.m_GlobalPhase = .OPENING_AUCTION)) ∧
    (e.m_GlobalPhase = .CLOSING_AUCTION →
      (now ≤ e.m_AuctionEnd →
        ∃ e2, e.EngineListen L now = some e2 ∧ e2.m_GlobalPhase = .CLOSING_AUCTION) ∧
      (e.m_AuctionEnd < now →
        (∀ k ∈ e.m_MonitoredOrderBook, auctionEnded e.m_OrderBookContainer now k = true) →
        ∃ e2, e.EngineListen L now = some e2 ∧ e2.m_GlobalPhase = .CLOSE)) ∧
    (∀ k b, k ∈ e.m_MonitoredOrderBook → findBook e.m_OrderBookContainer k = some b →
      (b.auctionEnd < now →
        k ∉ (e.CheckOrderBooks L now).m_MonitoredOrderBook ∧
        findBook (e.CheckOrderBooks L now).m_OrderBookContainer k =
          some (b.SetTradingPhase L e.m_GlobalPhase)) ∧
      (now ≤ b.auctionEnd →
        k ∈ (e.CheckOrderBooks L now).m_MonitoredOrderBook ∧
        findBook (e.CheckOrderBooks L now).m_OrderBookContainer k = some b)) := by
  refine ⟨?_, ?_, ?_⟩
  · intro h
    rw [EngineListen_OPENING_AUCTION L now e h]
    by_cases hlt : e.m_AuctionEnd < now
    · rw [if_pos hlt]
      exact ⟨_, rfl, fun _ => UpdateInstrumentsPhase_globalPhase L _ _,
        fun hle => absurd hlt (not_lt.2 hle)⟩
    · rw [if_neg hlt]
      exact ⟨_, rfl, fun h2 => absurd h2 hlt, fun _ => h⟩
  · intro h
    rw [EngineListen_CLOSING_AUCTION L now e h]
    constructor
    · intro hle
      rw [if_neg (not_lt.2 hle)]
      exact ⟨_, rfl, h⟩
    · intro hlt hall
      rw [if_pos hlt]
      obtain ⟨e2, h1, h2, _⟩ := close_session L (e.CheckOrderBooks L now) h
        ((CheckOrderBooks_monitored_eq_nil_iff L now e).2 hall)
      exact ⟨e2, h1, h2⟩
  · intro k b hk hb
    obtain ⟨h1, _, h3⟩ :=
      checkLoop_spec L now e.m_GlobalPhase e.m_MonitoredOrderBook e.m_OrderBookContainer
    have h3k := h3 k
    rw [hb] at h3k
    constructor
    · intro hlt
      refine ⟨?_, ?_⟩
      · rw [CheckOrderBooks_monitored]
        simp [auctionEnded, hb, OrderBook.GetAuctionEnd, hlt]
      · show findBook (MatchingEngine.checkLoop L now e.m_GlobalPhase e.m_MonitoredOrderBook
          e.m_OrderBookContainer).2 k = _
        rw [h3k]
        simp [hk, hlt]
    · intro hle
      refine ⟨?_, ?_⟩
      · rw [CheckOrderBooks_monitored]
        simp [auctionEnded, hb, OrderBook.GetAuctionEnd, hle, hk]
      · show findBook (MatchingEngine.checkLoop L now e.m_GlobalPhase e.m_MonitoredOrderBook
          e.m_OrderBookContainer).2 k = _
        rw [h3k]
        simp [hk, not_lt.2 hle]

/-- Instance of amended C7: a tick at 151 ends the opening auction that a tick at 150
leaves open. -/
theorem auction_end_is_strict_witness :
    (sampleEngine .OPENING_AUCTION 150 [(7, sampleBook .OPENING_AUCTION 0)] []).m_GlobalPhase =
      .OPENING_AUCTION ∧
    ∃ e2, (sampleEngine .OPENING_AUCTION 150 [(7, sampleBook .OPENING_AUCTION 0)] []).EngineListen
        sampleLogic 151 = some e2 ∧
      ((sampleEngine .OPENING_AUCTION 150 [(7, sampleBook .OPENING_AUCTION 0)] []).m_AuctionEnd
          < 151 → e2.m_GlobalPhase = .CONTINUOUS_TRADING) ∧
      ((151 : Int) ≤
          (sampleEngine .OPENING_AUCTION 150 [(7, sampleBook .OPENING_AUCTION 0)] []).m_AuctionEnd →
        e2.m_GlobalPhase = .OPENING_AUCTION) :=
  ⟨by decide,
   (auction_end_is_strict sampleLogic 151
      (sampleEngine .OPENING_AUCTION 150 [(7, sampleBook .OPENING_AUCTION 0)] [])).1 (by decide)⟩

/-! ## Closing the session -/

/-- C9, on the code: a configured engine is ticked into continuous trading, book 8
takes a bid, book 7 enters an intraday auction at 190 (until 290), and the tick at 200
starts the closing auction, which ends at 210. The tick at 211 is past the engine's
auction end, yet it does not close the session: book 7 is still monitored, the assertion
of `CancelAllOrders` does not hold, and no state with every book in `CLOSE` and without
resting orders is produced, the bid of book 8 included. -/
theorem EngineListen_close_with_monitored_book :
    ((MatchingEngine.construct.Configure sampleEnvironment (sampleConfig "instruments.db")).bind
      (fun r => runOps sampleLogic
        [.EngineListen 120, .EngineListen 140, .Insert sampleOrder 8,
         .EnterIntradayAuction 190 7, .EngineListen 200] r.2)).map
      (fun e => (e.m_GlobalPhase, e.m_AuctionEnd, e.m_MonitoredOrderBook,
        (findBook e.m_OrderBookContainer 8).map (fun b => b.bids))) =
      some (.CLOSING_AUCTION, 210, [7], some [sampleOrder]) ∧
    ((MatchingEngine.construct.Configure sampleEnvironment (sampleConfig "instruments.db")).bind
      (fun r => runOps sampleLogic
        [.EngineListen 120, .EngineListen 140, .Insert sampleOrder 8,
         .EnterIntradayAuction 190 7, .EngineListen 200] r.2)).map
      (fun e => (e.EngineListen sampleLogic 211).isSome) = some false := by
  decide

/-- The closing tick in general: from global phase `CLOSING_AUCTION`, a tick at `now`
past the engine's auction end is `CancelAllOrders` after `UpdateInstrumentsPhase(CLOSE)`.
When the auction of every monitored book has ended before `now`, the global phase
becomes `CLOSE` and every book has had `SetTradingPhase(CLOSE)` and then
`CancelAllOrders` applied, ending in phase `CLOSE` with no resting orders; otherwise the
assertion of `CancelAllOrders` is violated. -/
theorem EngineListen_closes_session (L : OrderBookLogic) (now : Int) (e : MatchingEngine)
    (h : e.m_GlobalPhase = .CLOSING_AUCTION) (hnow : e.m_AuctionEnd < now) :
    e.EngineListen L now =
      ((e.CheckOrderBooks L now).UpdateInstrumentsPhase L .CLOSE).CancelAllOrders ∧
    ((∀ k ∈ e.m_MonitoredOrderBook, auctionEnded e.m_OrderBookContainer now k = true) →
      ∃ e2, e.EngineListen L now = some e2 ∧ e2.m_GlobalPhase = .CLOSE ∧
        e2.m_MonitoredOrderBook = [] ∧
        e2.m_OrderBookContainer = (e.CheckOrderBooks L now).m_OrderBookContainer.map
          (fun kb => (kb.1, (kb.2.SetTradingPhase L .CLOSE).CancelAllOrders)) ∧
        ∀ kb ∈ e2.m_OrderBookContainer,
          kb.2.phase = .CLOSE ∧ kb.2.bids = [] ∧ kb.2.asks = []) ∧
    (¬ (∀ k ∈ e.m_MonitoredOrderBook, auctionEnded e.m_OrderBookContainer now k = true) →
      e.EngineListen L now = none) := by
  have hE := EngineListen_CLOSING_AUCTION L now e h
  rw [if_pos hnow] at hE
  refine ⟨hE, ?_, ?_⟩
  · intro hall
    rw [hE]
    exact close_session L (e.CheckOrderBooks L now) h
      ((CheckOrderBooks_monitored_eq_nil_iff L now e).2 hall)
  · intro hall
    rw [hE]
    apply CancelAllOrders_of_ne_nil
    rw [UpdateInstrumentsPhase_monitored]
    exact fun hnil => hall ((CheckOrderBooks_monitored_eq_nil_iff L now e).1 hnil)

/-- Instance of the closing tick: an engine in `CLOSING_AUCTION` until 150 that monitors
book 7 until 170 is ticked at 171, when the auction of the book has ended, and closes
with book 7 in `CLOSE` and empty. -/
theorem EngineListen_closes_session_witness :
    (sampleEngine .CLOSING_AUCTION 150 [(7, sampleBook .CLOSING_AUCTION 170)] [7]).m_GlobalPhase =
      .CLOSING_AUCTION ∧
    (sampleEngine .CLOSING_AUCTION 150 [(7, sampleBook .CLOSING_AUCTION 170)] [7]).m_AuctionEnd
      < 171 ∧
    (∀ k ∈ (sampleEngine .CLOSING_AUCTION 150
        [(7, sampleBook .CLOSING_AUCTION 170)] [7]).m_MonitoredOrderBook,
      auctionEnded (sampleEngine .CLOSING_AUCTION 150
        [(7, sampleBook .CLOSING_AUCTION 170)] [7]).m_OrderBookContainer 171 k = true) ∧
    ∃ e2, (sampleEngine .CLOSING_AUCTION 150
        [(7, sampleBook .CLOSING_AUCTION 170)] [7]).EngineListen sampleLogic 171 = some e2 ∧
      e2.m_GlobalPhase = .CLOSE ∧ e2.m_MonitoredOrderBook = [] ∧
      e2.m_OrderBookContainer =
        ((sampleEngine .CLOSING_AUCTION 150
          [(7, sampleBook .CLOSING_AUCTION 170)] [7]).CheckOrderBooks
            sampleLogic 171).m_OrderBookContainer.map
          (fun kb => (kb.1, (kb.2.SetTradingPhase sampleLogic .CLOSE).CancelAllOrders)) ∧
      ∀ kb ∈ e2.m_OrderBookContainer,
        kb.2.phase = .CLOSE ∧ kb.2.bids = [] ∧ kb.2.asks = [] :=
  ⟨by decide, by decide, by decide,
   (EngineListen_closes_session sampleLogic 171
      (sampleEngine .CLOSING_AUCTION 150 [(7, sampleBook .CLOSING_AUCTION 170)] [7])
      (by decide) (by decide)).2.1 (by decide)⟩

/-! ## The full-day lifecycle -/

/-- C10: from an engine in global phase `CLOSE` with no monitored book (as the
constructor leaves it) and `start_time < stop_time`, ticks at `t0 < start_time`,
`start_time < t1 < stop_time`, `t1 + opening_duration < t2 < stop_time`,
`t3 >= stop_time` and `t4 > t3 + closing_duration` all complete and leave the global
phase at `CLOSE`, `OPENING_AUCTION`, `CONTINUOUS_TRADING`, `CLOSING_AUCTION`, `CLOSE` in
turn; after the last tick every book is without resting orders. -/
theorem full_day_lifecycle (L : OrderBookLogic) (e : MatchingEngine) (t0 t1 t2 t3 t4 : Int)
    (hphase : e.m_GlobalPhase = .CLOSE) (hmon : e.m_MonitoredOrderBook = [])
    (_hwin : e.m_StartTime < e.m_StopTime)
    (h0 : t0 < e.m_StartTime)
    (h1 : e.m_StartTime < t1 ∧ t1 < e.m_StopTime)
    (h2 : t1 + e.m_OpeningAuctionDuration < t2 ∧ t2 < e.m_StopTime)
    (h3 : e.m_StopTime ≤ t3)
    (h4 : t3 + e.m_ClosingAuctionDuration < t4) :
    ∃ e0 e1 e2 e3 e4,
      e.EngineListen L t0 = some e0 ∧ e0.EngineListen L t1 = some e1 ∧
      e1.EngineListen L t2 = some e2 ∧ e2.EngineListen L t3 = some e3 ∧
      e3.EngineListen L t4 = some e4 ∧
      e0.m_GlobalPhase = .CLOSE ∧ e1.m_GlobalPhase = .OPENING_AUCTION ∧
      e2.m_GlobalPhase = .CONTINUOUS_TRADING ∧ e3.m_GlobalPhase = .CLOSING_AUCTION ∧
      e4.m_GlobalPhase = .CLOSE ∧
      ∀ kb ∈ e4.m_OrderBookContainer, kb.2.bids = [] ∧ kb.2.asks = [] := by
  -- the four states before the last tick
  let x1 : MatchingEngine := MatchingEngine.UpdateInstrumentsPhase L .OPENING_AUCTION
    { e with m_AuctionEnd := t1 + e.m_OpeningAuctionDuration }
  let x2 : MatchingEngine := x1.UpdateInstrumentsPhase L .CONTINUOUS_TRADING
  let x3 : MatchingEngine := MatchingEngine.UpdateInstrumentsPhase L .CLOSING_AUCTION
    { x2 with m_AuctionEnd := t3 + x2.m_ClosingAuctionDuration }
  -- what the ticks keep
  have m1 : x1.m_MonitoredOrderBook = [] := by
    rw [UpdateInstrumentsPhase_monitored]; exact hmon
  have p1 : x1.m_GlobalPhase = .OPENING_AUCTION := UpdateInstrumentsPhase_globalPhase L _ _
  have a1 : x1.m_AuctionEnd = t1 + e.m_OpeningAuctionDuration :=
    UpdateInstrumentsPhase_auctionEnd L _ _
  obtain ⟨s1, q1, -, c1⟩ := UpdateInstrumentsPhase_config L .OPENING_AUCTION
    { e with m_AuctionEnd := t1 + e.m_OpeningAuctionDuration }
  have m2 : x2.m_MonitoredOrderBook = [] := by
    rw [UpdateInstrumentsPhase_monitored]; exact m1
  have p2 : x2.m_GlobalPhase = .CONTINUOUS_TRADING := UpdateInstrumentsPhase_globalPhase L _ _
  obtain ⟨s2, q2, -, c2⟩ := UpdateInstrumentsPhase_config L .CONTINUOUS_TRADING x1
  have m3 : x3.m_MonitoredOrderBook = [] := by
    rw [UpdateInstrumentsPhase_monitored]; exact m2
  have p3 : x3.m_GlobalPhase = .CLOSING_AUCTION := UpdateInstrumentsPhase_globalPhase L _ _
  have a3 : x3.m_AuctionEnd = t3 + x2.m_ClosingAuctionDuration :=
    UpdateInstrumentsPhase_auctionEnd L _ _
  have c2e : x2.m_ClosingAuctionDuration = e.m_ClosingAuctionDuration := c2.trans c1
  have s2e : x2.m_StartTime = e.m_StartTime := s2.trans s1
  have q2e : x2.m_StopTime = e.m_StopTime := q2.trans q1
  -- the ticks
  have k0 : e.EngineListen L t0 = some e := by
    rw [EngineListen_CLOSE L t0 e hphase, if_neg (fun hw => absurd hw.1 (not_lt.2 h0.le)),
      CheckOrderBooks_nil L t0 e hmon]
  have k1 : e.EngineListen L t1 = some x1 := by
    rw [EngineListen_CLOSE L t1 e hphase, if_pos h1, CheckOrderBooks_nil L t1 e hmon]
  have k2 : x1.EngineListen L t2 = some x2 := by
    rw [EngineListen_OPENING_AUCTION L t2 x1 p1, if_pos (by rw [a1]; exact h2.1),
      CheckOrderBooks_nil L t2 x1 m1]
  have k3 : x2.EngineListen L t3 = some x3 := by
    rw [EngineListen_CONTINUOUS_TRADING L t3 x2 p2,
      if_neg (fun hw => absurd hw.2 (not_lt.2 (by rw [q2e]; exact h3))),
      CheckOrderBooks_nil L t3 x2 m2]
  have k4 : x3.EngineListen L t4 =
      (x3.UpdateInstrumentsPhase L .CLOSE).CancelAllOrders := by
    rw [EngineListen_CLOSING_AUCTION L t4 x3 p3, if_pos (by rw [a3, c2e]; exact h4),
      CheckOrderBooks_nil L t4 x3 m3]
  obtain ⟨x4, hx4, p4, -, -, hbooks⟩ := close_session L x3 p3 m3
  exact ⟨e, x1, x2, x3, x4, k0, k1, k2, k3, k4.trans hx4, hphase, p1, p2, p3, p4,
    fun kb hkb => (hbooks kb hkb).2⟩

/-- Instance of C10: the sample engine, open from 100 to 200 with auctions of 10
seconds and one book holding a resting bid, ticked at 50, 120, 140, 200 and 220. -/
theorem full_day_lifecycle_witness :
    ∃ e0 e1 e2 e3 e4,
      (sampleEngine .CLOSE 0 [(7, sampleBook .CLOSE 0)] []).EngineListen sampleLogic 50 =
        some e0 ∧
      e0.EngineListen sampleLogic 120 = some e1 ∧
      e1.EngineListen sampleLogic 140 = some e2 ∧ e2.EngineListen sampleLogic 200 = some e3 ∧
      e3.EngineListen sampleLogic 220 = some e4 ∧
      e0.m_GlobalPhase = .CLOSE ∧ e1.m_GlobalPhase = .OPENING_AUCTION ∧
      e2.m_GlobalPhase = .CONTINUOUS_TRADING ∧ e3.m_GlobalPhase = .CLOSING_AUCTION ∧
      e4.m_GlobalPhase = .CLOSE ∧
      ∀ kb ∈ e4.m_OrderBookContainer, kb.2.bids = [] ∧ kb.2.asks = [] :=
  full_day_lifecycle sampleLogic (sampleEngine .CLOSE 0 [(7, sampleBook .CLOSE 0)] [])
    50 120 140 200 220 (by decide) (by decide) (by decide) (by decide) (by decide)
    (by decide) (by decide) (by decide)

/-! ## One tick moves the session by at most one phase -/

/-- C16: for every engine state and every time, `EngineListen` completes with the
global phase either unchanged or advanced by exactly one step of the cycle
`CLOSE -> OPENING_AUCTION -> CONTINUOUS_TRADING -> CLOSING_AUCTION -> CLOSE`; the only
call that does not complete is the closing transition (one step, from `CLOSING_AUCTION`
past the auction end) stopped by the assertion of `CancelAllOrders` while a book stays
monitored. -/
theorem EngineListen_single_step (L : OrderBookLogic) (now : Int) (e : MatchingEngine) :
    (∃ e2, e.EngineListen L now = some e2 ∧
      (e2.m_GlobalPhase = e.m_GlobalPhase ∨
        (e.m_GlobalPhase ≠ .INTRADAY_AUCTION ∧ e2.m_GlobalPhase = e.m_GlobalPhase.next))) ∨
    (e.EngineListen L now = none ∧ e.m_GlobalPhase = .CLOSING_AUCTION ∧
      e.m_AuctionEnd < now ∧ (e.CheckOrderBooks L now).m_MonitoredOrderBook ≠ []) := by
  cases hp : e.m_GlobalPhase with
  | OPENING_AUCTION =>
    left
    rw [EngineListen_OPENING_AUCTION L now e hp]
    by_cases h : e.m_AuctionEnd < now
    · rw [if_pos h]
      exact ⟨_, rfl, Or.inr ⟨by decide, UpdateInstrumentsPhase_globalPhase L _ _⟩⟩
    · rw [if_neg h]
      exact ⟨_, rfl, Or.inl hp⟩
  | CONTINUOUS_TRADING =>
    left
    rw [EngineListen_CONTINUOUS_TRADING L now e hp]
    by_cases h : e.m_StartTime < now ∧ now < e.m_StopTime
    · rw [if_pos h]
      exact ⟨_, rfl, Or.inl hp⟩
    · rw [if_neg h]
      exact ⟨_, rfl, Or.inr ⟨by decide, UpdateInstrumentsPhase_globalPhase L _ _⟩⟩
  | CLOSING_AUCTION =>
    rw [EngineListen_CLOSING_AUCTION L now e hp]
    by_cases h : e.m_AuctionEnd < now
    · rw [if_pos h]
      by_cases hm : (e.CheckOrderBooks L now).m_MonitoredOrderBook = []
      · left
        obtain ⟨e2, h1, h2, _⟩ := close_session L (e.CheckOrderBooks L now) hp hm
        exact ⟨e2, h1, Or.inr ⟨by decide, h2⟩⟩
      · right
        refine ⟨CancelAllOrders_of_ne_nil _ ?_, rfl, h, hm⟩
        rw [UpdateInstrumentsPhase_monitored]
        exact hm
    · left
      rw [if_neg h]
      exact ⟨_, rfl, Or.inl hp⟩
  | CLOSE =>
    left
    rw [EngineListen_CLOSE L now e hp]
    by_cases h : e.m_StartTime < now ∧ now < e.m_StopTime
    · rw [if_pos h]
      exact ⟨_, rfl, Or.inr ⟨by decide, UpdateInstrumentsPhase_globalPhase L _ _⟩⟩
    · rw [if_neg h]
      exact ⟨_, rfl, Or.inl hp⟩
  | INTRADAY_AUCTION =>
    left
    have h1 : (e.CheckOrderBooks L now).m_GlobalPhase = .INTRADAY_AUCTION := hp
    exact ⟨e.CheckOrderBooks L now,
      by simp only [MatchingEngine.EngineListen, MatchingEngine.GetGlobalPhase, h1],
      Or.inl hp⟩

/-! ## Setting the current global phase again -/

/-- C17: when `p` is permitted and is the current global phase, `SetGlobalPhase(p)`
returns true and leaves the engine as it was (global phase, monitored books, every
book), except for the auction end, which becomes `now + opening_duration` for
`OPENING_AUCTION`, `now + closing_duration` for `CLOSING_AUCTION`, and is unchanged for
`CONTINUOUS_TRADING` and `CLOSE`. -/
theorem SetGlobalPhase_current_phase (L : OrderBookLogic) (now : Int) (p : TradingPhase)
    (e : MatchingEngine) (hp : p ≠ .INTRADAY_AUCTION) (hcur : p = e.m_GlobalPhase) :
    e.SetGlobalPhase L now p =
      (true,
        { e with
          m_AuctionEnd :=
            if p = .OPENING_AUCTION then now + e.m_OpeningAuctionDuration
            else if p = .CLOSING_AUCTION then now + e.m_ClosingAuctionDuration
            else e.m_AuctionEnd }) := by
  cases p
  · simp [MatchingEngine.SetGlobalPhase, TradingPhase.toNat]
    exact UpdateInstrumentsPhase_of_eq L _ _ hcur
  · simp [MatchingEngine.SetGlobalPhase, TradingPhase.toNat]
    exact UpdateInstrumentsPhase_of_eq L _ _ hcur
  · simp [MatchingEngine.SetGlobalPhase, TradingPhase.toNat]
    exact UpdateInstrumentsPhase_of_eq L _ _ hcur
  · simp [MatchingEngine.SetGlobalPhase, TradingPhase.toNat]
    exact UpdateInstrumentsPhase_of_eq L _ _ hcur
  · exact absurd rfl hp

/-- Instance of C17: an engine in `OPENING_AUCTION` with a book in intraday auction is
set to `OPENING_AUCTION` again at 140; only the auction end moves, to 150. -/
theorem SetGlobalPhase_current_phase_witness :
    TradingPhase.OPENING_AUCTION ≠ .INTRADAY_AUCTION ∧
    TradingPhase.OPENING_AUCTION =
      (sampleEngine .OPENING_AUCTION 130 [(7, sampleBook .INTRADAY_AUCTION 170)] [7]).m_GlobalPhase ∧
    (sampleEngine .OPENING_AUCTION 130 [(7, sampleBook .INTRADAY_AUCTION 170)] [7]).SetGlobalPhase
        sampleLogic 140 .OPENING_AUCTION =
      (true, sampleEngine .OPENING_AUCTION 150 [(7, sampleBook .INTRADAY_AUCTION 170)] [7]) :=
  ⟨by decide, by decide,
   SetGlobalPhase_current_phase sampleLogic 140 .OPENING_AUCTION
     (sampleEngine .OPENING_AUCTION 130 [(7, sampleBook .INTRADAY_AUCTION 170)] [7])
     (by decide) (by decide)⟩

/-! ## The global phase is never an intraday auction -/

/-- C12: in every state reached from the constructed engine, or from any engine whose
global phase is not `INTRADAY_AUCTION`, by a sequence of `SetGlobalPhase` (any phase),
`EngineListen`, `CheckOrderBooks`, `Insert`, `Modify`, `Delete` and books entering an
intraday auction, the global phase is one of `OPENING_AUCTION`, `CONTINUOUS_TRADING`,
`CLOSING_AUCTION`, `CLOSE`; and `CheckOrderBooks` does not change the global phase. -/
theorem globalPhase_never_intraday (L : OrderBookLogic) :
    (∀ ops e, runOps L ops MatchingEngine.construct = some e →
      (e.m_GlobalPhase = .OPENING_AUCTION ∨ e.m_GlobalPhase = .CONTINUOUS_TRADING ∨
        e.m_GlobalPhase = .CLOSING_AUCTION ∨ e.m_GlobalPhase = .CLOSE)) ∧
    (∀ e0 ops e, e0.m_GlobalPhase ≠ .INTRADAY_AUCTION → runOps L ops e0 = some e →
      (e.m_GlobalPhase = .OPENING_AUCTION ∨ e.m_GlobalPhase = .CONTINUOUS_TRADING ∨
        e.m_GlobalPhase = .CLOSING_AUCTION ∨ e.m_GlobalPhase = .CLOSE)) ∧
    (∀ now e, (MatchingEngine.CheckOrderBooks L now e).m_GlobalPhase = e.m_GlobalPhase) := by
  refine ⟨?_, ?_, ?_⟩
  · intro ops e h
    apply global_of_ne_intraday
    refine runOps_globalPhase L ops MatchingEngine.construct e ?_ h
    show TradingPhase.CLOSE ≠ TradingPhase.INTRADAY_AUCTION
    decide
  · intro e0 ops e h0 h
    exact global_of_ne_intraday _ (runOps_globalPhase L ops e0 e h0 h)
  · intro now e
    rfl

/-- Instance of C12: a closed engine with one book is ticked into the opening auction,
refuses `SetGlobalPhase(INTRADAY_AUCTION)` and takes an order; its global phase is
`OPENING_AUCTION`. -/
theorem globalPhase_never_intraday_witness :
    (sampleEngine .CLOSE 0 [(7, sampleBook .CLOSE 0)] []).m_GlobalPhase ≠ .INTRADAY_AUCTION ∧
    runOps sampleLogic
        [.EngineListen 120, .SetGlobalPhase 125 .INTRADAY_AUCTION, .Insert sampleOrder 7]
        (sampleEngine .CLOSE 0 [(7, sampleBook .CLOSE 0)] []) =
      some (sampleEngine .OPENING_AUCTION 130
        [(7, { sampleBook .OPENING_AUCTION 0 with bids := [sampleOrder, sampleOrder] })] []) ∧
    ((sampleEngine .OPENING_AUCTION 130
        [(7, { sampleBook .OPENING_AUCTION 0 with bids := [sampleOrder, sampleOrder] })]
        []).m_GlobalPhase = .OPENING_AUCTION ∨
      (sampleEngine .OPENING_AUCTION 130
        [(7, { sampleBook .OPENING_AUCTION 0 with bids := [sampleOrder, sampleOrder] })]
        []).m_GlobalPhase = .CONTINUOUS_TRADING ∨
      (sampleEngine .OPENING_AUCTION 130
        [(7, { sampleBook .OPENING_AUCTION 0 with bids := [sampleOrder, sampleOrder] })]
        []).m_GlobalPhase = .CLOSING_AUCTION ∨
      (sampleEngine .OPENING_AUCTION 130
        [(7, { sampleBook .OPENING_AUCTION 0 with bids := [sampleOrder, sampleOrder] })]
        []).m_GlobalPhase = .CLOSE) :=
  ⟨by decide, by decide,
   (globalPhase_never_intraday sampleLogic).2.1
     (sampleEngine .CLOSE 0 [(7, sampleBook .CLOSE 0)] [])
     [.EngineListen 120, .SetGlobalPhase 125 .INTRADAY_AUCTION, .Insert sampleOrder 7]
     _ (by decide) (by decide)⟩

/-! ## Configuration of the engine -/

/-- C13, on the code: the database `duplicates.db` delivers two instruments with the
product id 7. The handler of `LoadInstruments` logs the refused `emplace` and goes on,
and `Configure` returns true, with a single book under 7. -/
theorem Configure_duplicate_product_id :
    ((sampleEnvironment.Load "duplicates.db").1.map (fun i => i.productId) = [7, 7]) ∧
    (MatchingEngine.construct.Configure sampleEnvironment (sampleConfig "duplicates.db")).map
      (fun r => (r.1, bookKeys r.2.m_OrderBookContainer)) = some (true, [7]) := by
  decide

/-- C14, as stated, fails: in `brokenConfig` the key
`Engine.intraday_auction_duration` is missing and the start time is `abc`.
`LoadConfiguration` converts the start time before it reads the durations, the
exception of `duration_from_string` is not a `ptree_error`, and it leaves `Configure`,
which returns nothing. -/
theorem Configure_unparseable_time_counterexample :
    "Engine.intraday_auction_duration" ∈ configKeys ∧
    ptreeGet brokenConfig "Engine.intraday_auction_duration" = none ∧
    MatchingEngine.construct.Configure sampleEnvironment brokenConfig = none := by
  decide

/-- C14, amended: when one of the seven keys is missing, `Configure` never returns true;
it returns false when the missing key is `Engine.instrument_db_path`,
`Engine.start_time` or `Engine.stop_time`, and also when it is any of the seven keys and
`duration_from_string` converts the configured start and stop times; and `Configure`
returns true only if `LoadInstruments` and then `LoadConfiguration` both returned
true. -/
theorem Configure_missing_key (env : Environment) (iConfig : List (String × String))
    (e : MatchingEngine) :
    ((∃ key ∈ configKeys, ptreeGet iConfig key = none) →
      ∀ e2, e.Configure env iConfig ≠ some (true, e2)) ∧
    ((ptreeGet iConfig "Engine.instrument_db_path" = none ∨
        ptreeGet iConfig "Engine.start_time" = none ∨
        ptreeGet iConfig "Engine.stop_time" = none) →
      ∃ e2, e.Configure env iConfig = some (false, e2)) ∧
    ((∀ s, ptreeGet iConfig "Engine.start_time" = some s →
        env.duration_from_string s ≠ none) →
      (∀ s, ptreeGet iConfig "Engine.stop_time" = some s →
        env.duration_from_string s ≠ none) →
      (∃ key ∈ configKeys, ptreeGet iConfig key = none) →
      ∃ e2, e.Configure env iConfig = some (false, e2)) ∧
    (∀ e2, e.Configure env iConfig = some (true, e2) →
      (e.LoadInstruments env iConfig).1 = true ∧
      (e.LoadInstruments env iConfig).2.LoadConfiguration env iConfig = some (true, e2)) := by
  refine ⟨?_, ?_, ?_, ?_⟩
  · rintro ⟨key, hkey, hmiss⟩ e2 hc
    obtain ⟨hl, hcfg⟩ := Configure_true env iConfig e e2 hc
    have h0 := LoadInstruments_true env iConfig e hl
    obtain ⟨h1, h2, h3, h4, h5, h6⟩ := LoadConfiguration_true env iConfig _ e2 hcfg
    simp only [configKeys, List.mem_cons, List.mem_singleton, List.not_mem_nil, or_false]
      at hkey
    rcases hkey with rfl | rfl | rfl | rfl | rfl | rfl | rfl
    · exact h0 hmiss
    · exact h1 hmiss
    · exact h2 hmiss
    · exact h3 hmiss
    · exact h4 hmiss
    · exact h5 hmiss
    · exact h6 hmiss
  · rintro (h | h | h)
    · exact ⟨_, Configure_of_LoadInstruments_false env iConfig e
        (by rw [LoadInstruments_of_missing env iConfig e h])⟩
    · exact Configure_of_LoadConfiguration_false env iConfig e _
        (LoadConfiguration_of_missing_time env iConfig _ (Or.inl h))
    · exact Configure_of_LoadConfiguration_false env iConfig e _
        (LoadConfiguration_of_missing_time env iConfig _ (Or.inr h))
  · rintro hstart hstop ⟨key, hkey, hmiss⟩
    simp only [configKeys, List.mem_cons, List.mem_singleton, List.not_mem_nil, or_false]
      at hkey
    rcases hkey with rfl | hkey
    · exact ⟨_, Configure_of_LoadInstruments_false env iConfig e
        (by rw [LoadInstruments_of_missing env iConfig e hmiss])⟩
    · obtain ⟨e2, he2⟩ := LoadConfiguration_of_missing env iConfig
        (e.LoadInstruments env iConfig).2 hstart hstop
        (by rcases hkey with rfl | rfl | rfl | rfl | rfl | rfl <;> simp [hmiss])
      exact Configure_of_LoadConfiguration_false env iConfig e e2 he2
  · intro e2 hc
    exact Configure_true env iConfig e e2 hc

/-- Instance of amended C14: a configuration without `Engine.stop_time` is refused. -/
theorem Configure_missing_key_witness :
    (ptreeGet [("Engine.instrument_db_path", "instruments.db"), ("Engine.start_time", "abc")]
        "Engine.instrument_db_path" = none ∨
      ptreeGet [("Engine.instrument_db_path", "instruments.db"), ("Engine.start_time", "abc")]
        "Engine.start_time" = none ∨
      ptreeGet [("Engine.instrument_db_path", "instruments.db"), ("Engine.start_time", "abc")]
        "Engine.stop_time" = none) ∧
    ∃ e2, MatchingEngine.construct.Configure sampleEnvironment
        [("Engine.instrument_db_path", "instruments.db"), ("Engine.start_time", "abc")] =
      some (false, e2) :=
  ⟨by decide,
   (Configure_missing_key sampleEnvironment
      [("Engine.instrument_db_path", "instruments.db"), ("Engine.start_time", "abc")]
      MatchingEngine.construct).2.1 (by decide)⟩

/-! ## Monitored books across a change of the global phase -/

/-- C11, on the code: a configured engine is ticked into continuous trading, book 7
enters an intraday auction at 190 (until 290), and the tick at 200, the stop time,
starts the closing auction. `UpdateInstrumentsPhase` puts every book in
`CLOSING_AUCTION` and leaves the monitored books as they are: book 7 is monitored and
not in `INTRADAY_AUCTION`. -/
theorem monitored_book_after_phase_change :
    ((MatchingEngine.construct.Configure sampleEnvironment (sampleConfig "instruments.db")).bind
      (fun r => runOps sampleLogic
        [.EngineListen 120, .EngineListen 140, .EnterIntradayAuction 190 7] r.2)).map
      (fun e => (e.m_GlobalPhase, e.m_MonitoredOrderBook,
        (findBook e.m_OrderBookContainer 7).map (fun b => (b.phase, b.auctionEnd)))) =
      some (.CONTINUOUS_TRADING, [7], some (.INTRADAY_AUCTION, 290)) ∧
    ((MatchingEngine.construct.Configure sampleEnvironment (sampleConfig "instruments.db")).bind
      (fun r => runOps sampleLogic
        [.EngineListen 120, .EngineListen 140, .EnterIntradayAuction 190 7,
         .EngineListen 200] r.2)).map
      (fun e => (e.m_GlobalPhase, e.m_MonitoredOrderBook,
        (findBook e.m_OrderBookContainer 7).map (fun b => (b.phase, b.auctionEnd)))) =
      some (.CLOSING_AUCTION, [7], some (.CLOSING_AUCTION, 290)) := by
  decide

/-- C15, on the code: after the same calls the engine is in `CLOSING_AUCTION` until 210
and book 7 is monitored until 290. The tick at 211 keeps the book monitored, starts the
transition to `CLOSE` and reaches `CancelAllOrders` with a monitored book: the assertion
fails. -/
theorem CancelAllOrders_assertion_fails :
    ((MatchingEngine.construct.Configure sampleEnvironment (sampleConfig "instruments.db")).bind
      (fun r => runOps sampleLogic
        [.EngineListen 120, .EngineListen 140, .EnterIntradayAuction 190 7,
         .EngineListen 200] r.2)).map
      (fun e => (e.m_GlobalPhase, e.m_AuctionEnd,
        (e.CheckOrderBooks sampleLogic 211).m_MonitoredOrderBook,
        ((e.CheckOrderBooks sampleLogic 211).UpdateInstrumentsPhase sampleLogic
          .CLOSE).CancelAllOrders.isSome)) =
      some (.CLOSING_AUCTION, 210, [7], false) ∧
    (MatchingEngine.construct.Configure sampleEnvironment (sampleConfig "instruments.db")).bind
      (fun r => runOps sampleLogic
        [.EngineListen 120, .EngineListen 140, .EnterIntradayAuction 190 7,
         .EngineListen 200, .EngineListen 211] r.2) = none := by
  decide

end exchange.engine
